import Mathlib
set_option linter.unnecessarySeqFocus false
set_option linter.unusedVariables false

/-!
Verification of the canonical value model, comparator, serializer, parser and
batch runner implemented by the per-language test-runner generators of this
repository.

The main embedding is the Python runner emitted by the Python generator
(`generateRunner`): functions `deep_equals`, `serialize`, `parse_expected_value`,
`convert_expected` and the batch loop.  The Java runner's `deepEquals`, the C#
runner's `DeepEquals`, the TypeScript runner's `__serialize__` and the C++
generator's `convertCppToJson` are embedded separately where claims cite them.

Modelling conventions:
* IEEE-754 doubles are modelled by `PFloat`: NaN, +infinity, -infinity, or an
  exact rational value.  Rounding of arithmetic and the 0.0 / -0.0 distinction
  are not modelled; every property settled here depends only on comparisons
  that are robust to rounding.
* Python `int` is unbounded, hence `Int`.
* Mapping keys are modelled as strings, following the canonical model (spec
  section 3: `Mapping` keys are `Str`; the Python serializer coerces keys with
  `str(k)`).
* Host-language library primitives that live outside this repository
  (`json.loads`, `ast.literal_eval`, `JSON.parse`) are taken as function
  parameters; everything written in the repository's own runner code is
  translated directly.
-/

/-- Model of an IEEE-754 double: NaN, the two infinities, or an exact finite
value (rounding not modelled). -/
inductive PFloat where
  | nan
  | inf
  | ninf
  | val (q : ℚ)
  deriving DecidableEq

/-- IEEE `==` on doubles: NaN compares unequal to everything including itself;
otherwise value equality. -/
def pfEq : PFloat → PFloat → Bool
  | .nan, _ => false
  | _, .nan => false
  | .inf, .inf => true
  | .inf, _ => false
  | _, .inf => false
  | .ninf, .ninf => true
  | .ninf, _ => false
  | _, .ninf => false
  | .val a, .val b => a = b

/-- IEEE double subtraction on the model (exact on finite values). -/
def pfSub : PFloat → PFloat → PFloat
  | .nan, _ => .nan
  | _, .nan => .nan
  | .inf, .inf => .nan
  | .inf, _ => .inf
  | .ninf, .ninf => .nan
  | .ninf, _ => .ninf
  | .val _, .inf => .ninf
  | .val _, .ninf => .inf
  | .val a, .val b => .val (a - b)

/-- IEEE absolute value on the model. -/
def pfAbs : PFloat → PFloat
  | .nan => .nan
  | .inf => .inf
  | .ninf => .inf
  | .val a => .val |a|

/-- IEEE `<` on doubles: any comparison with NaN is false. -/
def pfLt : PFloat → PFloat → Bool
  | .nan, _ => false
  | _, .nan => false
  | .ninf, .ninf => false
  | .ninf, _ => true
  | _, .ninf => false
  | .inf, _ => false
  | .val _, .inf => true
  | .val a, .val b => a < b

/-- Is the double NaN? -/
def pfIsNan : PFloat → Bool
  | .nan => true
  | _ => false

namespace PyRunner

/-- A JSON-compatible Python structure: what `serialize` produces and what
`json.loads` yields.  Numbers keep Python's int/float distinction, exactly as
Python's `json` module does. -/
inductive JValue where
  | null
  | b (v : Bool)
  | i (n : ℤ)
  | f (v : PFloat)
  | s (v : String)
  | arr (xs : List JValue)
  | obj (kvs : List (String × JValue))

/-- The Python runner's value universe: every shape `deep_equals`, `serialize`
and `parse_expected_value` distinguish.  `dict`, `Counter`, `OrderedDict` and
`defaultdict` are separate constructors because Python's `type(a) != type(b)`
check distinguishes them even though all four hit the `isinstance(a, dict)`
branch of `deep_equals`. -/
inductive PyValue where
  | none
  | bool (v : Bool)
  | int (n : ℤ)
  | float (v : PFloat)
  | str (v : String)
  | list (xs : List PyValue)
  | tuple (xs : List PyValue)
  | dict (kvs : List (String × PyValue))
  | set (xs : List PyValue)
  | frozenset (xs : List PyValue)
  | deque (xs : List PyValue)
  | counter (kvs : List (String × PyValue))
  | odict (kvs : List (String × PyValue))
  | ddict (kvs : List (String × PyValue))

/-- Lookup in an association list with string keys (Python `d[k]` / `k in d`). -/
def jLookup (k : String) : List (String × JValue) → Option JValue
  | [] => Option.none
  | (k2, v) :: rest => if k = k2 then some v else jLookup k rest

/-- Approximation of Python's `repr` on a float, used only inside the sort key
of `serialize` for sets; no theorem depends on the exact rendering. -/
def pyReprFloat : PFloat → String
  | .nan => "nan"
  | .inf => "inf"
  | .ninf => "-inf"
  | .val q => toString q

/-- Comma-space separated concatenation, as Python renders containers. -/
def commaSep : List String → String
  | [] => ""
  | [x] => x
  | x :: rest => x ++ ", " ++ commaSep rest

mutual
/-- Approximation of Python's `repr` on a JSON-compatible structure (string
escaping inside `repr` is not modelled).  Only used as the `str(x)` sort key
in `serialize`; no theorem depends on the exact rendering. -/
def pyReprJ : JValue → String
  | .null => "None"
  | .b true => "True"
  | .b false => "False"
  | .i n => toString n
  | .f v => pyReprFloat v
  | .s v => "'" ++ v ++ "'"
  | .arr xs => "[" ++ commaSep (pyReprList xs) ++ "]"
  | .obj kvs => "\x7b" ++ commaSep (pyReprKVs kvs) ++ "\x7d"
def pyReprList : List JValue → List String
  | [] => []
  | x :: rest => pyReprJ x :: pyReprList rest
def pyReprKVs : List (String × JValue) → List String
  | [] => []
  | (k, v) :: rest => ("'" ++ k ++ "': " ++ pyReprJ v) :: pyReprKVs rest
end

/-- Python's `str(x)` on a JSON-compatible structure: identity on strings,
`repr` otherwise. -/
def pyStrJ : JValue → String
  | .s v => v
  | v => pyReprJ v

/-- Code-point-wise lexicographic order on char lists, the order Python uses
to sort the `str(x)` sort keys. -/
def lexLe : List Char → List Char → Bool
  | [], _ => true
  | _ :: _, [] => false
  | c :: cs, d :: ds =>
    if c.toNat < d.toNat then true
    else if d.toNat < c.toNat then false
    else lexLe cs ds

/-- The comparison `str(x) <= str(y)` used by `sorted(..., key=lambda x: str(x))`. -/
def keyLe (a b : JValue) : Bool := lexLe (pyStrJ a).data (pyStrJ b).data

mutual
/-- The Python runner's `serialize`: type-preserving conversion of a Python
value to a JSON-compatible structure with `__type__` markers.  Branch order
follows the source (bool before int, `Counter`/`OrderedDict`/`defaultdict`
before plain `dict`). -/
def serialize : PyValue → JValue
  | .none => .null
  | .bool v => .b v
  | .counter kvs =>
    .obj [("__type__", .s "Counter"), ("value", .obj (serializeKVs kvs))]
  | .odict kvs =>
    .obj [("__type__", .s "OrderedDict"), ("value", .obj (serializeKVs kvs))]
  | .ddict kvs =>
    .obj [("__type__", .s "defaultdict"), ("value", .obj (serializeKVs kvs))]
  | .int n => .obj [("__type__", .s "int"), ("value", .i n)]
  | .float v =>
    if pfIsNan v then .obj [("__type__", .s "float"), ("value", .s "NaN")]
    else if v = .inf then .obj [("__type__", .s "float"), ("value", .s "Infinity")]
    else if v = .ninf then .obj [("__type__", .s "float"), ("value", .s "-Infinity")]
    else .obj [("__type__", .s "float"), ("value", .f v)]
  | .str v => .s v
  | .tuple xs => .obj [("__type__", .s "tuple"), ("value", .arr (serializeList xs))]
  | .list xs => .arr (serializeList xs)
  | .dict kvs => .obj [("__type__", .s "dict"), ("value", .obj (serializeKVs kvs))]
  | .set xs =>
    .obj [("__type__", .s "set"),
      ("value", .arr (List.insertionSort (fun a b => keyLe a b = true) (serializeList xs)))]
  | .frozenset xs =>
    .obj [("__type__", .s "frozenset"),
      ("value", .arr (List.insertionSort (fun a b => keyLe a b = true) (serializeList xs)))]
  | .deque xs => .obj [("__type__", .s "deque"), ("value", .arr (serializeList xs))]
def serializeList : List PyValue → List JValue
  | [] => []
  | x :: rest => serialize x :: serializeList rest
def serializeKVs : List (String × PyValue) → List (String × JValue)
  | [] => []
  | (k, v) :: rest => (k, serialize v) :: serializeKVs rest
end

end PyRunner

namespace PyRunner

mutual
/-- Python's `==` on the modelled values, for *distinct* objects (the identity
shortcut CPython applies to the very same object is not modelled; every
comparison settled here is between structurally rebuilt values).  The numeric
tower `bool`/`int`/`float` compares by value; `set` and `frozenset` compare by
mutual membership (equivalent to CPython's length-plus-subset test because
model sets carry no duplicates); all dict subclasses compare as dicts except
that two `OrderedDict`s compare order-sensitively. -/
def pyEq : PyValue → PyValue → Bool
  | .none, .none => true
  | .str x, .str y => x == y
  | .list xs, .list ys => (xs.length == ys.length) && pyEqList xs ys
  | .tuple xs, .tuple ys => (xs.length == ys.length) && pyEqList xs ys
  | .odict u, .odict v => pyOrdEq u v
  | .dict u, .dict v | .dict u, .counter v | .dict u, .odict v | .dict u, .ddict v
  | .counter u, .dict v | .counter u, .counter v | .counter u, .odict v
  | .counter u, .ddict v | .odict u, .dict v | .odict u, .counter v
  | .odict u, .ddict v | .ddict u, .dict v | .ddict u, .counter v
  | .ddict u, .odict v | .ddict u, .ddict v =>
    (u.length == v.length) && pyDictEq u v
  | .set xs, .set ys | .set xs, .frozenset ys
  | .frozenset xs, .set ys | .frozenset xs, .frozenset ys =>
    pySubAB xs ys && pySubBA ys xs
  | .deque xs, .deque ys => (xs.length == ys.length) && pyEqList xs ys
  | .bool x, .bool y => x == y
  | .bool x, .int n => (if x then (1 : ℤ) else 0) == n
  | .bool x, .float v => pfEq (.val (if x then 1 else 0)) v
  | .int m, .bool y => m == (if y then (1 : ℤ) else 0)
  | .int m, .int n => m == n
  | .int m, .float v => pfEq (.val m) v
  | .float u, .bool y => pfEq u (.val (if y then 1 else 0))
  | .float u, .int n => pfEq u (.val n)
  | .float u, .float v => pfEq u v
  | _, _ => false
termination_by a b => sizeOf a + sizeOf b
decreasing_by all_goals (simp_wf <;> omega)
def pyEqList : List PyValue → List PyValue → Bool
  | x :: xs, y :: ys => pyEq x y && pyEqList xs ys
  | _, _ => true
termination_by l1 l2 => sizeOf l1 + sizeOf l2
decreasing_by all_goals (simp_wf <;> omega)
/-- Order-sensitive pair-list equality (CPython's `OrderedDict.__eq__`). -/
def pyOrdEq : List (String × PyValue) → List (String × PyValue) → Bool
  | [], [] => true
  | (k1, v1) :: r1, (k2, v2) :: r2 => (k1 == k2) && pyEq v1 v2 && pyOrdEq r1 r2
  | _, _ => false
termination_by u v => sizeOf u + sizeOf v
decreasing_by all_goals (simp_wf <;> omega)
/-- Dict equality body: every pair of the left dict has a matching pair in the
right dict.  The scan continues past a same-key value mismatch, which is
equivalent to CPython's single `b[k]` lookup because dict keys are unique. -/
def pyDictEq : List (String × PyValue) → List (String × PyValue) → Bool
  | [], _ => true
  | (k, v) :: rest, b => pyPairMem k v b && pyDictEq rest b
termination_by u v => sizeOf u + sizeOf v
decreasing_by all_goals (simp_wf <;> omega)
def pyPairMem : String → PyValue → List (String × PyValue) → Bool
  | _, _, [] => false
  | k, v, (k2, v2) :: rest => ((k == k2) && pyEq v v2) || pyPairMem k v rest
termination_by _ v b => sizeOf v + sizeOf b
decreasing_by all_goals (simp_wf <;> omega)
/-- Every element of the first list equals (`pyEq a b`) some element of the
second. -/
def pySubAB : List PyValue → List PyValue → Bool
  | [], _ => true
  | a :: rest, t => pyInL a t && pySubAB rest t
termination_by s t => sizeOf s + sizeOf t
decreasing_by all_goals (simp_wf <;> omega)
def pyInL : PyValue → List PyValue → Bool
  | _, [] => false
  | a, b :: bs => pyEq a b || pyInL a bs
termination_by a t => sizeOf a + sizeOf t
decreasing_by all_goals (simp_wf <;> omega)
/-- Every element of the second-role list is hit by (`pyEq a b`) some element
of the first-role list. -/
def pySubBA : List PyValue → List PyValue → Bool
  | [], _ => true
  | b :: rest, s => pyInR b s && pySubBA rest s
termination_by t s => sizeOf t + sizeOf s
decreasing_by all_goals (simp_wf <;> omega)
def pyInR : PyValue → List PyValue → Bool
  | _, [] => false
  | b, a :: more => pyEq a b || pyInR b more
termination_by b s => sizeOf b + sizeOf s
decreasing_by all_goals (simp_wf <;> omega)
end

/-- Python set equality: mutual membership.  CPython tests equal cardinality
plus one-sided inclusion; on duplicate-free sets the two agree. -/
def pySetEq (s t : List PyValue) : Bool := pySubAB s t && pySubBA t s

/-- The string keys of a modelled dict. -/
def kvKeys (kvs : List (String × PyValue)) : List String := kvs.map Prod.fst

/-- Python `set(a.keys()) == set(b.keys())` on string keys: mutual inclusion
(coincides with set equality because dict keys are unique). -/
def strSetEq (u v : List String) : Bool :=
  u.all (fun k => v.contains k) && v.all (fun k => u.contains k)

mutual
/-- The Python runner's `deep_equals`: strict, no type coercion.  `None` checks
first, then the both-`float`-NaN special case, then the `type(a) != type(b)`
guard (modelled by the catch-all returning `false` for distinct constructors),
then lists, tuples, dicts (all four dict types reach the `isinstance(a, dict)`
branch), sets and frozensets, and finally Python `==` for everything else
(scalars and `deque`). -/
def deep_equals : PyValue → PyValue → Bool
  | .none, .none => true
  | .float x, .float y => if pfIsNan x && pfIsNan y then true else pfEq x y
  | .bool x, .bool y => x == y
  | .int x, .int y => x == y
  | .str x, .str y => x == y
  | .list xs, .list ys => (xs.length == ys.length) && deepList xs ys
  | .tuple xs, .tuple ys => (xs.length == ys.length) && deepList xs ys
  | .dict u, .dict v => strSetEq (kvKeys u) (kvKeys v) && deepKV u v
  | .counter u, .counter v => strSetEq (kvKeys u) (kvKeys v) && deepKV u v
  | .odict u, .odict v => strSetEq (kvKeys u) (kvKeys v) && deepKV u v
  | .ddict u, .ddict v => strSetEq (kvKeys u) (kvKeys v) && deepKV u v
  | .set xs, .set ys => pySetEq xs ys
  | .frozenset xs, .frozenset ys => pySetEq xs ys
  | .deque xs, .deque ys => (xs.length == ys.length) && pyEqList xs ys
  | _, _ => false
termination_by a b => sizeOf a + sizeOf b
decreasing_by all_goals (simp_wf <;> omega)
def deepList : List PyValue → List PyValue → Bool
  | x :: xs, y :: ys => deep_equals x y && deepList xs ys
  | _, _ => true
termination_by l1 l2 => sizeOf l1 + sizeOf l2
decreasing_by all_goals (simp_wf <;> omega)
/-- Dict branch body: `all(deep_equals(a[k], b[k]) for k in a)`.  The scan
continues past a same-key value mismatch, equivalent to CPython's single
lookup because dict keys are unique. -/
def deepKV : List (String × PyValue) → List (String × PyValue) → Bool
  | [], _ => true
  | (k, v) :: rest, b => deepPair k v b && deepKV rest b
termination_by u v => sizeOf u + sizeOf v
decreasing_by all_goals (simp_wf <;> omega)
def deepPair : String → PyValue → List (String × PyValue) → Bool
  | _, _, [] => false
  | k, v, (k2, v2) :: rest => ((k == k2) && deep_equals v v2) || deepPair k v rest
termination_by _ v b => sizeOf v + sizeOf b
decreasing_by all_goals (simp_wf <;> omega)
end

end PyRunner

namespace PyRunner

/-- Python `int(v)` as applied by `convert_expected` under the `"int"` marker.
`int()` of a non-numeric payload would raise or parse a string; such payloads
never occur in serialized wire forms (`serialize` always stores a JSON int
there), so they are mapped to `int 0` here. -/
def pyIntOf : JValue → PyValue
  | .i n => .int n
  | .b true => .int 1
  | .b false => .int 0
  | .f (.val q) => .int (q.num / (q.den : ℤ))
  | _ => .int 0

/-- Python `float(v)` preceded by the sentinel-string tests, as applied by
`convert_expected` under the `"float"` marker.  `float()` of a non-numeric
non-sentinel payload would raise or parse a string; such payloads never occur
in serialized wire forms, so they are mapped to `float 0` here. -/
def pyFloatOf : JValue → PyValue
  | .s v =>
    if v = "NaN" then .float .nan
    else if v = "Infinity" then .float .inf
    else if v = "-Infinity" then .float .ninf
    else .float (.val 0)
  | .f q => .float q
  | .i n => .float (.val n)
  | .b true => .float (.val 1)
  | .b false => .float (.val 0)
  | _ => .float (.val 0)

/-- Marker dispatch of `convert_expected`, given the raw `"value"` payload
`v`, its element-wise conversion `cl` when it is a JSON array, its value-wise
conversion `ckvs` when it is a JSON object, and the value-wise conversion
`plain` of the whole dict for the fall-through.  Branch order follows the
source; a marker whose payload has the wrong shape (never produced by
`serialize`; in Python it would raise inside the caller's `try`) falls
through to the value-wise dict conversion. -/
def dispatchMarker (tag : String) (v : JValue) (cl : Option (List PyValue))
    (ckvs : Option (List (String × PyValue)))
    (plain : List (String × PyValue)) : PyValue :=
  if tag = "tuple" then match cl with | some ys => .tuple ys | _ => .dict plain
  else if tag = "set" then match cl with | some ys => .set ys | _ => .dict plain
  else if tag = "frozenset" then match cl with | some ys => .frozenset ys | _ => .dict plain
  else if tag = "int" then pyIntOf v
  else if tag = "float" then pyFloatOf v
  else if tag = "dict" then match ckvs with | some w => .dict w | _ => .dict plain
  else if tag = "deque" then match cl with | some ys => .deque ys | _ => .dict plain
  else if tag = "Counter" then match ckvs with | some w => .counter w | _ => .dict plain
  else if tag = "OrderedDict" then match ckvs with | some w => .odict w | _ => .dict plain
  else if tag = "defaultdict" then match ckvs with | some w => .ddict w | _ => .dict plain
  else if tag = "undefined" then .none
  else .dict plain

mutual
/-- The Python runner's `convert_expected`: JSON structure to Python value,
honouring `__type__` markers.  A dict that carries both a `"__type__"` and a
`"value"` key dispatches on the marker; any other dict converts value-wise. -/
def convert_expected : JValue → PyValue
  | .null => .none
  | .b v => .bool v
  | .i n => .int n
  | .f q => .float q
  | .s v => .str v
  | .arr xs => .list (convertList xs)
  | .obj kvs =>
    match jLookup "__type__" kvs, findPayload kvs with
    | some (.s tag), some p => dispatchMarker tag p.1 p.2.1 p.2.2 (convertKVs kvs)
    | some _, some _ => .dict (convertKVs kvs)
    | _, _ => .dict (convertKVs kvs)
def convertList : List JValue → List PyValue
  | [] => []
  | x :: rest => convert_expected x :: convertList rest
def convertKVs : List (String × JValue) → List (String × PyValue)
  | [] => []
  | (k, v) :: rest => (k, convert_expected v) :: convertKVs rest
/-- The element-wise conversion of an array payload and the value-wise
conversion of an object payload, precomputed for `dispatchMarker`. -/
def payloadConv : JValue → Option (List PyValue) × Option (List (String × PyValue))
  | .arr xs => (some (convertList xs), Option.none)
  | .obj w => (Option.none, some (convertKVs w))
  | _ => (Option.none, Option.none)
/-- Scan for the `"value"` key and pair the raw payload with its converted
forms. -/
def findPayload :
    List (String × JValue) →
      Option (JValue × (Option (List PyValue) × Option (List (String × PyValue))))
  | [] => Option.none
  | (k, v) :: rest => if k = "value" then some (v, payloadConv v) else findPayload rest
end

mutual
/-- No NaN anywhere in the value. -/
def nanFree : PyValue → Bool
  | .float v => !pfIsNan v
  | .list xs | .tuple xs | .set xs | .frozenset xs | .deque xs => nanFreeL xs
  | .dict kvs | .counter kvs | .odict kvs | .ddict kvs => nanFreeKV kvs
  | _ => true
def nanFreeL : List PyValue → Bool
  | [] => true
  | x :: rest => nanFree x && nanFreeL rest
def nanFreeKV : List (String × PyValue) → Bool
  | [] => true
  | (_, v) :: rest => nanFree v && nanFreeKV rest
end

mutual
/-- The values for which the serialize/convert round trip is compared by the
structural branches of `deep_equals`: NaN may occur anywhere except inside a
`set`, `frozenset` or `deque`, whose members `deep_equals` hands to native
Python `==` (where a rebuilt NaN is unequal to the original). -/
def roundTripSafe : PyValue → Bool
  | .set xs | .frozenset xs | .deque xs => nanFreeL xs
  | .list xs | .tuple xs => rtSafeL xs
  | .dict kvs | .counter kvs | .odict kvs | .ddict kvs => rtSafeKV kvs
  | _ => true
def rtSafeL : List PyValue → Bool
  | [] => true
  | x :: rest => roundTripSafe x && rtSafeL rest
def rtSafeKV : List (String × PyValue) → Bool
  | [] => true
  | (_, v) :: rest => roundTripSafe v && rtSafeKV rest
end

end PyRunner

namespace PyRunner

/-- ASCII whitespace, the characters stripped by `str.strip()` (further
Unicode whitespace is not modelled). -/
def isSpaceChar (c : Char) : Bool :=
  c = ' ' || c = '\t' || c = '\n' || c = '\r' || c = '\x0b' || c = '\x0c'

/-- Python `str.strip()` on a char list. -/
def stripChars (l : List Char) : List Char :=
  ((l.dropWhile isSpaceChar).reverse.dropWhile isSpaceChar).reverse

/-- Python `val.strip()`. -/
def pyStrip (s : String) : String := ⟨stripChars s.data⟩

/-- Value of a run of decimal digits. -/
def natOfDigits (l : List Char) : ℕ := l.foldl (fun a c => 10 * a + (c.toNat - 48)) 0

/-- The regex `^-?\d+$` (ASCII digits; Python's `\d` also accepts Unicode
digits, not modelled). -/
def isIntLit (s : String) : Bool :=
  match s.data with
  | '-' :: rest => !rest.isEmpty && rest.all (fun c => c.isDigit)
  | l => !l.isEmpty && l.all (fun c => c.isDigit)

/-- Value of a string matching `^-?\d+$` (Python `int(...)`). -/
def intOfLit (s : String) : ℤ :=
  match s.data with
  | '-' :: rest => -(natOfDigits rest : ℤ)
  | l => (natOfDigits l : ℤ)

/-- Python `int(x)` on already-stripped text: optional sign then digits;
anything else raises (modelled as failure).  Underscore digit separators are
not modelled. -/
def pyIntParse (s : String) : Option ℤ :=
  match s.data with
  | '-' :: r => if !r.isEmpty && r.all (fun c => c.isDigit) then some (-(natOfDigits r : ℤ)) else Option.none
  | '+' :: r => if !r.isEmpty && r.all (fun c => c.isDigit) then some (natOfDigits r : ℤ) else Option.none
  | l => if !l.isEmpty && l.all (fun c => c.isDigit) then some (natOfDigits l : ℤ) else Option.none

/-- Split a char list at the first `'.'`. -/
def breakDot : List Char → Option (List Char × List Char)
  | [] => Option.none
  | '.' :: rest => some ([], rest)
  | c :: rest => (breakDot rest).map (fun p => (c :: p.1, p.2))

/-- The union of the regexes `^-?\d*\.\d+$` and `^-?\d+\.\d*$`. -/
def isFloatLit (s : String) : Bool :=
  let l := match s.data with | '-' :: r => r | l => l
  match breakDot l with
  | some (a, b) =>
    a.all (fun c => c.isDigit) && b.all (fun c => c.isDigit) && (!a.isEmpty || !b.isEmpty)
  | Option.none => false

/-- Exact value of a decimal float literal (Python `float(...)`; rounding to
binary is not modelled, see `PFloat`). -/
def ratOfFloatLit (s : String) : ℚ :=
  let signed := match s.data with | '-' :: r => (true, r) | l => (false, l)
  match breakDot signed.2 with
  | some (a, b) =>
    let v : ℚ := (natOfDigits a : ℚ) + (natOfDigits b : ℚ) / ((10 : ℚ) ^ b.length)
    if signed.1 then -v else v
  | Option.none => 0

/-- Split a char list at the first `"**"`. -/
def splitStars : List Char → Option (List Char × List Char)
  | [] => Option.none
  | '*' :: '*' :: rest => some ([], rest)
  | c :: rest => (splitStars rest).map (fun p => (c :: p.1, p.2))

/-- The power rule `^(-?\d+)\*\*(-?\d+)$`: evaluated when `0 <= exp <= 1000`,
otherwise the rule yields nothing and parsing falls through. -/
def powTry (t : String) : Option PyValue :=
  match splitStars t.data with
  | some (l, r) =>
    let ls : String := ⟨l⟩
    let rs : String := ⟨r⟩
    if isIntLit ls && isIntLit rs then
      let base := intOfLit ls
      let exp := intOfLit rs
      if 0 ≤ exp && exp ≤ 1000 then some (.int (base ^ exp.toNat)) else Option.none
    else Option.none
  | Option.none => Option.none

/-- The anchored DOTALL regex `^pre(.*)suf$`: the inner text when `t` starts
with `pre` and ends with `suf` without overlap. -/
def ctorInner (pre suf t : String) : Option String :=
  if pre.data.isPrefixOf t.data && suf.data.isSuffixOf t.data
      && pre.length + suf.length ≤ t.length then
    some ⟨(t.data.drop pre.length).take (t.length - pre.length - suf.length)⟩
  else Option.none

/-- Python iteration over a literal-eval result, as consumed by
`frozenset(...)`: containers yield elements, dicts yield keys, strings yield
characters; non-iterables raise (modelled as failure, which the caller's
`except` turns into fall-through). -/
def pyIterElems : PyValue → Option (List PyValue)
  | .set xs | .frozenset xs | .list xs | .tuple xs | .deque xs => some xs
  | .dict kvs | .counter kvs | .odict kvs | .ddict kvs =>
    some (kvs.map (fun p => .str p.1))
  | .str v => some (v.data.map (fun c => .str ⟨[c]⟩))
  | _ => Option.none

/-- The `frozenset({...})` rule. -/
def fsTry (litP : String → Option PyValue) (t : String) : Option PyValue :=
  match ctorInner "frozenset(\x7b" "\x7d)" t with
  | some innerRaw =>
    let inner := pyStrip innerRaw
    if inner = "" then some (.frozenset [])
    else
      match litP ("\x7b" ++ inner ++ "\x7d") with
      | some v => (pyIterElems v).map .frozenset
      | Option.none => Option.none
  | Option.none => Option.none

/-- The `Counter({...})` rule.  `Counter` over a non-dict literal (for example
a set literal) builds native-keyed counts, which lie outside this model's
string-keyed mappings; such inputs fall through, and no claim exercises them. -/
def counterTry (litP : String → Option PyValue) (t : String) : Option PyValue :=
  match ctorInner "Counter(\x7b" "\x7d)" t with
  | some innerRaw =>
    let inner := pyStrip innerRaw
    if inner = "" then some (.counter [])
    else
      match litP ("\x7b" ++ inner ++ "\x7d") with
      | some (.dict kvs) => some (.counter kvs)
      | _ => Option.none
  | Option.none => Option.none

/-- String-keyed key/value pairs of a literal list of 2-tuples, as consumed by
`OrderedDict([...])`.  Native-keyed pairs lie outside the model and fall
through (in Python a malformed list raises inside the rule's `try`, which also
falls through). -/
def kvPairsOf : List PyValue → Option (List (String × PyValue))
  | [] => some []
  | .tuple [.str k, v] :: rest => (kvPairsOf rest).map (fun l => (k, v) :: l)
  | _ => Option.none

/-- The `OrderedDict([...])` rule. -/
def odTry (litP : String → Option PyValue) (t : String) : Option PyValue :=
  match ctorInner "OrderedDict([" "])" t with
  | some innerRaw =>
    let inner := pyStrip innerRaw
    if inner = "" then some (.odict [])
    else
      match litP ("[" ++ inner ++ "]") with
      | some (.list xs) => (kvPairsOf xs).map .odict
      | _ => Option.none
  | Option.none => Option.none

/-- The `deque([...])` rule. -/
def dequeTry (litP : String → Option PyValue) (t : String) : Option PyValue :=
  match ctorInner "deque([" "])" t with
  | some innerRaw =>
    let inner := pyStrip innerRaw
    if inner = "" then some (.deque [])
    else
      match litP ("[" ++ inner ++ "]") with
      | some (.list xs) => some (.deque xs)
      | _ => Option.none
  | Option.none => Option.none

/-- Split on every comma (Python `str.split(',')`). -/
def splitComma : List Char → List (List Char)
  | [] => [[]]
  | ',' :: rest => [] :: splitComma rest
  | c :: rest =>
    match splitComma rest with
    | p :: ps => (c :: p) :: ps
    | [] => [[c]]

/-- Python `list(range(...))` for 1–3 integer arguments; `step = 0` raises in
Python (caught, falls through), modelled as failure. -/
def rangeList (start stop step : ℤ) : List ℤ :=
  let len : ℕ :=
    if step > 0 then (((stop - start) + step - 1) / step).toNat
    else (((start - stop) + (-step) - 1) / (-step)).toNat
  (List.range len).map (fun i => start + step * i)

/-- The `list(range(N[, M[, S]]))` rule: regex `^list\(range\(([^)]+)\)\)$`,
then comma-split, strip and `int(...)` each argument. -/
def rangeTry (t : String) : Option PyValue :=
  match ctorInner "list(range(" "))" t with
  | some argsRaw =>
    if argsRaw = "" || argsRaw.data.contains ')' then Option.none
    else
      let parts := (splitComma argsRaw.data).map (fun l => pyIntParse (pyStrip ⟨l⟩))
      match parts with
      | [some a] => some (.list ((rangeList 0 a 1).map .int))
      | [some a, some b] => some (.list ((rangeList a b 1).map .int))
      | [some a, some b, some c] =>
        if c = 0 then Option.none else some (.list ((rangeList a b c).map .int))
      | _ => Option.none
  | Option.none => Option.none

/-- The literal-keyword rules, in source order: Python then JavaScript special
values. -/
def tryKeywords (t : String) : Option PyValue :=
  if t = "True" then some (.bool true)
  else if t = "False" then some (.bool false)
  else if t = "None" then some PyValue.none
  else if t = "undefined" then some PyValue.none
  else if t = "NaN" then some (.float .nan)
  else if t = "Infinity" then some (.float .inf)
  else if t = "-Infinity" then some (.float .ninf)
  else Option.none

/-- The constructor-call rules, in source order. -/
def tryCtor (litP : String → Option PyValue) (t : String) : Option PyValue :=
  (if t = "frozenset()" then some (.frozenset []) else Option.none) <|>
  fsTry litP t <|>
  (if t = "Counter()" then some (.counter []) else Option.none) <|>
  counterTry litP t <|>
  (if t = "OrderedDict()" then some (.odict []) else Option.none) <|>
  odTry litP t <|>
  (if t = "deque()" then some (.deque []) else Option.none) <|>
  dequeTry litP t <|>
  (if t = "defaultdict()" then some (.ddict []) else Option.none) <|>
  rangeTry t

/-- The numeric rules, in source order: power, integer, float. -/
def tryNums (t : String) : Option PyValue :=
  powTry t <|>
  (if isIntLit t then some (.int (intOfLit t)) else Option.none) <|>
  (if isFloatLit t then some (.float (.val (ratOfFloatLit t))) else Option.none)

/-- Is the character part of a regex word (`\w`, ASCII approximation)? -/
def isWordChar (c : Char) : Bool := c.isAlphanum || c = '_'

/-- One `re.sub(r'\bTGT\b', REP, ...)` pass, scanning left to right. -/
def wordSubGo (tgt rep : List Char) : ℕ → Bool → List Char → List Char
  | 0, _, l => l
  | _ + 1, _, [] => []
  | fuel + 1, prevWord, c :: rest =>
    if !prevWord && tgt.isPrefixOf (c :: rest)
        && !isWordChar (((c :: rest).drop tgt.length).headD ' ') then
      rep ++ wordSubGo tgt rep fuel (isWordChar (tgt.getLastD ' ')) ((c :: rest).drop tgt.length)
    else c :: wordSubGo tgt rep fuel (isWordChar c) rest

/-- Python `re.sub(r'\btgt\b', rep, s)`. -/
def wordSub (tgt rep s : String) : String :=
  ⟨wordSubGo tgt.data rep.data s.data.length false s.data⟩

/-- Normalize JSON-style keywords to Python before `ast.literal_eval`, in
source order: `true`, then `false`, then `null`. -/
def normalizeBools (s : String) : String :=
  wordSub "null" "None" (wordSub "false" "False" (wordSub "true" "True" s))

/-- An expected value as received from the frontend: raw text, or an already
structured JSON value. -/
inductive RawExpected where
  | text (s : String)
  | json (j : JValue)

/-- The Python runner's `parse_expected_value`: non-strings convert directly;
strings go through the resolution chain (JSON, keywords, constructors,
numbers, normalized literal eval) and on total failure degrade to the
*original* string, whitespace included.  `json.loads` and `ast.literal_eval`
are host-library collaborators passed as `jsonP` and `litP`. -/
def parse_expected_value (jsonP : String → Option JValue)
    (litP : String → Option PyValue) : RawExpected → PyValue
  | .json j => convert_expected j
  | .text val =>
    let t := pyStrip val
    match jsonP t with
    | some j => convert_expected j
    | Option.none =>
      match tryKeywords t with
      | some v => v
      | Option.none =>
        match tryCtor litP t with
        | some v => v
        | Option.none =>
          match tryNums t with
          | some v => v
          | Option.none =>
            match litP (normalizeBools t) with
            | some v => v
            | Option.none => .str val

/-- A fault captured at the evaluator boundary: the originating exception's
type name and message. -/
structure EvalError where
  kind : String
  msg : String

/-- One test case as fed to the runner loop. -/
structure TestCase where
  call : String
  expected : RawExpected

/-- One record of the runner's result list. -/
structure ResultRec where
  index : ℕ
  actual : JValue
  expected_serialized : JValue
  passed : Bool
  error : Option String

/-- The body of the Python runner's batch loop at index `i`: evaluate the call
(`eval(tc['call'])` is the host-runtime collaborator `evalF`), parse the
expectation, compare, serialize; a raised exception yields the error record
with `actual` null, `passed` false and `error` `"Kind: message"`. -/
def runOne (evalF : String → Except EvalError PyValue)
    (jsonP : String → Option JValue) (litP : String → Option PyValue)
    (i : ℕ) (tc : TestCase) : ResultRec :=
  match evalF tc.call with
  | .ok actual =>
    let expected := parse_expected_value jsonP litP tc.expected
    { index := i, actual := serialize actual, expected_serialized := serialize expected,
      passed := deep_equals actual expected, error := Option.none }
  | .error e =>
    { index := i, actual := .null, expected_serialized := .null, passed := false,
      error := some (e.kind ++ ": " ++ e.msg) }

/-- The Python runner's batch loop: strictly sequential, one record per test
case, never stopping early. -/
def runBatch (evalF : String → Except EvalError PyValue)
    (jsonP : String → Option JValue) (litP : String → Option PyValue) :
    ℕ → List TestCase → List ResultRec
  | _, [] => []
  | i, tc :: rest => runOne evalF jsonP litP i tc :: runBatch evalF jsonP litP (i + 1) rest

end PyRunner

namespace JavaRunner

/-- The Java runner's value universe after evaluation and gson decoding:
boxed primitives, strings, `List`s, reflective arrays and `Map`s. -/
inductive JavaVal where
  | jnull
  | jbool (b : Bool)
  | jint (n : ℤ)
  | jdouble (v : PFloat)
  | jstr (s : String)
  | jlist (xs : List JavaVal)
  | jarr (xs : List JavaVal)
  | jmap (kvs : List (JavaVal × JavaVal))

mutual
/-- Java `Object.equals` between *distinct* objects, used for map-key lookup:
boxed scalars compare by value (`Double.equals` treats NaN as equal to itself,
hence the structural comparison), `AbstractList.equals` is element-wise,
`AbstractMap.equals` compares entry sets (modelled as size plus per-entry
lookup), and array `equals` is reference identity, hence `false` here. -/
def javaObjEq : JavaVal → JavaVal → Bool
  | .jnull, .jnull => true
  | .jbool x, .jbool y => x == y
  | .jint m, .jint n => m == n
  | .jdouble x, .jdouble y => x == y
  | .jstr a, .jstr b => a == b
  | .jlist xs, .jlist ys => (xs.length == ys.length) && javaEqList xs ys
  | .jmap u, .jmap v => (u.length == v.length) && javaEqEntries u v
  | _, _ => false
termination_by a b => sizeOf a + sizeOf b
decreasing_by all_goals (simp_wf <;> omega)
def javaEqList : List JavaVal → List JavaVal → Bool
  | x :: xs, y :: ys => javaObjEq x y && javaEqList xs ys
  | _, _ => true
termination_by l1 l2 => sizeOf l1 + sizeOf l2
decreasing_by all_goals (simp_wf <;> omega)
def javaEqEntries : List (JavaVal × JavaVal) → List (JavaVal × JavaVal) → Bool
  | [], _ => true
  | (k, v) :: rest, m => javaEntryMem k v m && javaEqEntries rest m
termination_by u v => sizeOf u + sizeOf v
decreasing_by all_goals (simp_wf <;> omega)
def javaEntryMem : JavaVal → JavaVal → List (JavaVal × JavaVal) → Bool
  | _, _, [] => false
  | k, v, (k2, v2) :: rest => (javaObjEq k k2 && javaObjEq v v2) || javaEntryMem k v rest
termination_by k v m => sizeOf k + sizeOf v + sizeOf m
decreasing_by all_goals (simp_wf <;> omega)
end

/-- Java `String.valueOf` on the values used as map keys.  The renderings of
doubles and containers are approximations (containers render via `toString`,
arrays via an identity hash); only scalar keys are exercised by any theorem. -/
def valueOf : JavaVal → String
  | .jnull => "null"
  | .jbool true => "true"
  | .jbool false => "false"
  | .jint n => toString n
  | .jdouble v => PyRunner.pyReprFloat v
  | .jstr s => s
  | .jlist _ => "[]"
  | .jarr _ => "[Ljava.lang.Object;"
  | .jmap _ => "\x7b\x7d"

/-- Is the value a `java.lang.Number`?  (`Boolean` is not.) -/
def jIsNum : JavaVal → Bool
  | .jint _ => true
  | .jdouble _ => true
  | _ => false

/-- Java `Number.doubleValue()`. -/
def jToDouble : JavaVal → PFloat
  | .jint n => .val n
  | .jdouble v => v
  | _ => .val 0

mutual
/-- The Java runner's `deepEquals`: null checks, then *any* two `Number`s
compared as doubles by `da == db` (NaN paired with NaN first), then lists,
arrays (against lists or arrays), then maps with the string-form key fallback,
then `Object.equals`. -/
def deepEquals : JavaVal → JavaVal → Bool
  | .jnull, .jnull => true
  | .jnull, _ => false
  | _, .jnull => false
  | a, b =>
    if jIsNum a && jIsNum b then
      let da := jToDouble a
      let db := jToDouble b
      if pfIsNan da && pfIsNan db then true else pfEq da db
    else
      match a, b with
      | .jlist xs, .jlist ys => (xs.length == ys.length) && deepEqList xs ys
      | .jarr xs, .jlist ys => (xs.length == ys.length) && deepEqList xs ys
      | .jarr xs, .jarr ys => (xs.length == ys.length) && deepEqList xs ys
      | .jmap u, .jmap v => (u.length == v.length) && deepEqMap u v
      | a, b => javaObjEq a b
termination_by a b => sizeOf a + sizeOf b
decreasing_by all_goals (simp_wf <;> omega)
def deepEqList : List JavaVal → List JavaVal → Bool
  | x :: xs, y :: ys => deepEquals x y && deepEqList xs ys
  | _, _ => true
termination_by l1 l2 => sizeOf l1 + sizeOf l2
decreasing_by all_goals (simp_wf <;> omega)
/-- The lookup `mb.containsKey(k) ? mb.get(k) : ...` fused with the recursive value
comparison: scan for the probe key with `Object.equals`, and on the first key
hit compare the values with `deepEquals`. -/
def findCmp : JavaVal → JavaVal → List (JavaVal × JavaVal) → Option Bool
  | _, _, [] => Option.none
  | k, va, (k2, v2) :: rest =>
    if javaObjEq k k2 then some (deepEquals va v2) else findCmp k va rest
termination_by k va m => sizeOf va + sizeOf m
decreasing_by all_goals (simp_wf <;> omega)
/-- The map branch body: for each entry of the left map, look the key up in
the right map first in its native form, then — the coercion fallback — in its
`String.valueOf` form; a key found in neither form fails the comparison. -/
def deepEqMap : List (JavaVal × JavaVal) → List (JavaVal × JavaVal) → Bool
  | [], _ => true
  | (k, va) :: rest, mb =>
    (match findCmp k va mb with
     | some r => r
     | Option.none =>
       match findCmp (.jstr (valueOf k)) va mb with
       | some r => r
       | Option.none => false) && deepEqMap rest mb
termination_by u v => sizeOf u + sizeOf v
decreasing_by all_goals (simp_wf <;> omega)
end

end JavaRunner

namespace CSharpRunner

/-- The C# runner's value universe: boxed primitives, strings, chars, lists,
`ValueTuple`s, dictionaries, and the `KeyValuePair` structs a dictionary
enumerates as. -/
inductive CSVal where
  | cnull
  | cbool (b : Bool)
  | cint (n : ℤ)
  | cdouble (v : PFloat)
  | cstr (s : String)
  | cchar (c : Char)
  | clist (xs : List CSVal)
  | ctuple (xs : List CSVal)
  | ckv (k : CSVal) (v : CSVal)
  | cdict (kvs : List (CSVal × CSVal))

/-- The runner's `IsNumeric`: the primitive numeric types (`bool` and `char`
are not among them). -/
def csIsNumeric : CSVal → Bool
  | .cint _ => true
  | .cdouble _ => true
  | _ => false

/-- The runner's `Convert.ToDouble` on a numeric value. -/
def csToDouble : CSVal → PFloat
  | .cint n => .val n
  | .cdouble v => v
  | _ => .val 0

/-- The `.ToString()` rendering used by the string-comparison branch.  Container and
tuple renderings are .NET type names, approximated here; no theorem depends
on them. -/
def csToString : CSVal → String
  | .cnull => ""
  | .cbool true => "True"
  | .cbool false => "False"
  | .cint n => toString n
  | .cdouble v => PyRunner.pyReprFloat v
  | .cstr s => s
  | .cchar c => ⟨[c]⟩
  | .clist _ => "System.Collections.Generic.List\x601[System.Object]"
  | .ctuple _ => "System.ValueTuple"
  | .ckv _ _ => "System.Collections.Generic.KeyValuePair\x602"
  | .cdict _ => "System.Collections.Generic.Dictionary\x602"

/-- Is the value a `string`? -/
def csIsStr : CSVal → Bool
  | .cstr _ => true
  | _ => false

/-- C# `Object.Equals` between distinct objects: value equality for boxed scalars
and strings (`Double.Equals` treats NaN as equal to itself, hence structural),
field-wise for the `KeyValuePair` struct, reference identity — `false` here —
for lists and dictionaries. -/
def csObjEquals : CSVal → CSVal → Bool
  | .cbool x, .cbool y => x == y
  | .cint m, .cint n => m == n
  | .cdouble x, .cdouble y => x == y
  | .cchar c, .cchar d => c == d
  | .cstr a, .cstr b => a == b
  | .ckv k1 v1, .ckv k2 v2 => csObjEquals k1 k2 && csObjEquals v1 v2
  | _, _ => false

/-- Comparing two enumerated `KeyValuePair` structs inside `DeepEquals`
reduces to `Object.Equals` (a `KeyValuePair` is not null, numeric, a tuple,
enumerable or a string), i.e. to field-wise `Object.Equals`. -/
def csKVListEq : List (CSVal × CSVal) → List (CSVal × CSVal) → Bool
  | (k1, v1) :: r1, (k2, v2) :: r2 =>
    (csObjEquals k1 k2 && csObjEquals v1 v2) && csKVListEq r1 r2
  | _, _ => true

/-- Measure helper for the tuple-flattening recursion. -/
def tupFlag : CSVal → ℕ
  | .ctuple _ => 1
  | _ => 0

mutual
/-- The C# runner's `DeepEquals`: null checks; then *any* two numerics
compared as doubles with a NaN-pair special case and otherwise an absolute
epsilon `Math.Abs(da - db) < 0.0000001`; then `ValueTuple` flattened to a list
via reflection; then the `IEnumerable` branch — which also consumes
dictionaries, enumerated as `KeyValuePair` sequences, so the source's later
`IDictionary` branch is unreachable for `Dictionary` values and the branch is
expanded here into the four list/dictionary constructor pairs; then the
`ToString` comparison when either side is a string; finally `Object.Equals`. -/
def DeepEquals : CSVal → CSVal → Bool
  | .cnull, .cnull => true
  | .cnull, _ => false
  | _, .cnull => false
  | a, b =>
    if csIsNumeric a && csIsNumeric b then
      let da := csToDouble a
      let db := csToDouble b
      if pfIsNan da && pfIsNan db then true
      else pfLt (pfAbs (pfSub da db)) (.val (1 / 10000000))
    else
      match a, b with
      | .ctuple fs, b => DeepEquals (.clist fs) b
      | .clist xs, .clist ys => (xs.length == ys.length) && csDeepList xs ys
      | .clist xs, .cdict v => (xs.length == v.length) && csListVsKVs xs v
      | .cdict u, .clist ys => (u.length == ys.length) && csKVsVsList u ys
      | .cdict u, .cdict v => (u.length == v.length) && csKVListEq u v
      | a, b =>
        if csIsStr a || csIsStr b then csToString a == csToString b
        else csObjEquals a b
termination_by a b => 2 * (sizeOf a + sizeOf b) + tupFlag a
decreasing_by all_goals (simp_wf <;> simp [tupFlag] <;> omega)
def csDeepList : List CSVal → List CSVal → Bool
  | x :: xs, y :: ys => DeepEquals x y && csDeepList xs ys
  | _, _ => true
termination_by l1 l2 => 2 * (sizeOf l1 + sizeOf l2) + 2
decreasing_by all_goals (simp_wf <;> (try cases x) <;> (try simp [tupFlag]) <;> omega)
/-- List compared element-wise against a dictionary's `KeyValuePair` sequence. -/
def csListVsKVs : List CSVal → List (CSVal × CSVal) → Bool
  | x :: xs, (k, v) :: rest => DeepEquals x (.ckv k v) && csListVsKVs xs rest
  | _, _ => true
termination_by l1 l2 => 2 * (sizeOf l1 + sizeOf l2) + 2
decreasing_by all_goals (simp_wf <;> (try cases x) <;> (try simp [tupFlag]) <;> omega)
/-- A dictionary's `KeyValuePair` sequence compared element-wise against a
list. -/
def csKVsVsList : List (CSVal × CSVal) → List CSVal → Bool
  | (k, v) :: rest, y :: ys => DeepEquals (.ckv k v) y && csKVsVsList rest ys
  | _, _ => true
termination_by l1 l2 => 2 * (sizeOf l1 + sizeOf l2) + 2
decreasing_by all_goals (simp_wf <;> (try cases y) <;> (try simp [tupFlag]) <;> omega)
end

end CSharpRunner

namespace TSRunner

/-- The TypeScript runner's value universe: JavaScript values with a single
number type. -/
inductive TSVal where
  | tundef
  | tnull
  | tnum (v : PFloat)
  | tbool (b : Bool)
  | tstr (s : String)
  | tarr (xs : List TSVal)
  | tobj (kvs : List (String × TSVal))

mutual
/-- The TypeScript runner's `__serialize__`: `undefined` and `null` both
become `null`; a NaN or infinite number becomes the *bare* sentinel string;
arrays and objects serialize member-wise; every other value (finite numbers
included, which fall past the non-finite tests) is returned as is. -/
def tsSerialize : TSVal → TSVal
  | .tundef => .tnull
  | .tnull => .tnull
  | .tnum v =>
    match v with
    | .nan => .tstr "NaN"
    | .inf => .tstr "Infinity"
    | .ninf => .tstr "-Infinity"
    | .val q => .tnum (.val q)
  | .tarr xs => .tarr (tsSerializeList xs)
  | .tobj kvs => .tobj (tsSerializeKVs kvs)
  | .tbool b => .tbool b
  | .tstr s => .tstr s
def tsSerializeList : List TSVal → List TSVal
  | [] => []
  | x :: rest => tsSerialize x :: tsSerializeList rest
def tsSerializeKVs : List (String × TSVal) → List (String × TSVal)
  | [] => []
  | (k, v) :: rest => (k, tsSerialize v) :: tsSerializeKVs rest
end

end TSRunner

namespace CppGen

/-- One step of the brace-rewrite state machine of `convertCppToJson`:
`(escapeNext, inString)` after consuming `c`. -/
def step (e ins : Bool) (c : Char) : Bool × Bool :=
  if e then (false, ins)
  else if c = '\\' then (true, ins)
  else if c = '"' then (false, !ins)
  else (false, ins)

/-- The character emitted for `c` in state `(escapeNext, inString)`: braces
are rewritten to brackets only when neither escaped nor inside a string. -/
def outChar (e ins : Bool) (c : Char) : Char :=
  if e then c
  else if c = '\\' then c
  else if c = '"' then c
  else if !ins then (if c = '\x7b' then '[' else if c = '\x7d' then ']' else c)
  else c

/-- The rewrite loop of `convertCppToJson`, one emitted character per input
character. -/
def rewriteGo (e ins : Bool) : List Char → List Char
  | [] => []
  | c :: rest => outChar e ins c :: rewriteGo (step e ins c).1 (step e ins c).2 rest

/-- Brace-to-bracket rewrite of the trimmed expected text. -/
def rewriteBraces (s : String) : String := ⟨rewriteGo false false s.data⟩

/-- The machine state before position `i`. -/
def stAt (e ins : Bool) : List Char → ℕ → Bool × Bool
  | _, 0 => (e, ins)
  | [], _ + 1 => (e, ins)
  | c :: rest, i + 1 => stAt (step e ins c).1 (step e ins c).2 rest i

/-- Length of the maximal run of backslashes immediately before position `i`. -/
def backslashRun (s : List Char) : ℕ → ℕ
  | 0 => 0
  | i + 1 => if s.getD i ' ' = '\\' then backslashRun s i + 1 else 0

/-- Position `i` is escaped iff it is preceded by an odd run of backslashes. -/
def escapedAt (s : List Char) (i : ℕ) : Bool := backslashRun s i % 2 = 1

/-- Number of unescaped double quotes before position `i`. -/
def quoteCount (s : List Char) (i : ℕ) : ℕ :=
  (List.range i).countP (fun j => s.getD j ' ' = '"' ∧ escapedAt s j = false)

/-- Position `i` lies inside a double-quoted string literal iff an odd number
of unescaped quotes precede it. -/
def inStringAt (s : List Char) (i : ℕ) : Bool := quoteCount s i % 2 = 1

/-- Result of `convertCppToJson`: a parsed JSON value, or the original input
value unchanged. -/
inductive CppExpected where
  | json (j : PyRunner.JValue)
  | raw (s : String)

/-- The C++ generator's `convertCppToJson`: trim (JavaScript `trim`, modelled
like `pyStrip` over ASCII whitespace); unless the text is brace-delimited
return it as is; otherwise rewrite braces outside string literals and attempt
`JSON.parse` (the host collaborator `jsonP`), returning the *original* value
on parse failure. -/
def convertCppToJson (jsonP : String → Option PyRunner.JValue) (value : String) :
    CppExpected :=
  let trimmed := PyRunner.pyStrip value
  if ['\x7b'].isPrefixOf trimmed.data && ['\x7d'].isSuffixOf trimmed.data then
    match jsonP (rewriteBraces trimmed) with
    | some j => .json j
    | Option.none => .raw value
  else .raw value

end CppGen

set_option maxHeartbeats 2000000

namespace CppGen

theorem rewriteGo_getD (l : List Char) :
    ∀ (e ins : Bool) (i : ℕ), i < l.length →
      (rewriteGo e ins l).getD i ' ' =
        outChar (stAt e ins l i).1 (stAt e ins l i).2 (l.getD i ' ') := by
  induction l with
  | nil => intro e ins i h; simp at h
  | cons c rest ih =>
    intro e ins i h
    cases i with
    | zero => simp [rewriteGo, stAt]
    | succ i =>
      simp only [rewriteGo, stAt, List.getD_cons_succ]
      exact ih _ _ i (by simpa using h)

theorem stAt_succ (l : List Char) :
    ∀ (e ins : Bool) (i : ℕ), i < l.length →
      stAt e ins l (i + 1) =
        step (stAt e ins l i).1 (stAt e ins l i).2 (l.getD i ' ') := by
  induction l with
  | nil => intro e ins i h; simp at h
  | cons c rest ih =>
    intro e ins i h
    cases i with
    | zero => simp [stAt]
    | succ i =>
      simp only [stAt, List.getD_cons_succ]
      exact ih _ _ i (by simpa using h)

theorem step_fst (e ins : Bool) (c : Char) : (step e ins c).1 = (!e && decide (c = '\\')) := by
  cases e <;> simp [step] <;> split_ifs <;> simp_all

theorem step_snd (e ins : Bool) (c : Char) :
    (step e ins c).2 = (if !e && decide (c = '"') then !ins else ins) := by
  cases e <;> simp [step] <;> split_ifs <;> simp_all

theorem parity_flip (n : ℕ) : decide ((n + 1) % 2 = 1) = !decide (n % 2 = 1) := by
  rcases Nat.mod_two_eq_zero_or_one n with h | h <;> simp [Nat.add_mod, h]

theorem stAt_spec (s : List Char) :
    ∀ i, i ≤ s.length →
      (stAt false false s i).1 = escapedAt s i ∧
      (stAt false false s i).2 = inStringAt s i := by
  intro i
  induction i with
  | zero =>
    intro _
    constructor <;> simp [stAt, escapedAt, backslashRun, inStringAt, quoteCount]
  | succ i ih =>
    intro h
    have hi : i < s.length := by omega
    obtain ⟨h1, h2⟩ := ih (by omega)
    rw [stAt_succ s false false i hi, step_fst, step_snd, h1, h2]
    have hq : quoteCount s (i + 1) =
        quoteCount s i + (if s.getD i ' ' = '"' ∧ escapedAt s i = false then 1 else 0) := by
      simp [quoteCount, List.range_succ, List.countP_append, List.countP_cons]
    have hbr : backslashRun s (i + 1) =
        if s.getD i ' ' = '\\' then backslashRun s i + 1 else 0 := rfl
    constructor
    · simp only [escapedAt, hbr, List.getD]
      by_cases hc : s[i]?.getD ' ' = '\\'
      · simp [hc, parity_flip]
      · simp [hc]
    · simp only [inStringAt, hq, List.getD]
      by_cases hc : s[i]?.getD ' ' = '"'
      · by_cases he : escapedAt s i = false
        · simp [hc, he, parity_flip]
        · have he2 : escapedAt s i = true := by revert he; cases escapedAt s i <;> simp
          simp [hc, he2]
      · simp [hc]

theorem outChar_spec (e ins : Bool) (c : Char) :
    outChar e ins c =
      (if ins = true then c
       else if e = false ∧ c = '\x7b' then '['
       else if e = false ∧ c = '\x7d' then ']'
       else c) := by
  cases e <;> cases ins <;> simp [outChar] <;> split_ifs <;> simp_all

end CppGen

/-- C9: for an expected-value string that is brace-delimited after trimming,
the brace-to-bracket rewrite of `convertCppToJson` maps the character at every
position `i` as follows: inside a double-quoted string literal (an odd number
of unescaped quotes precede `i`) the character is copied unchanged, escaped
characters are copied unchanged, and outside string literals an unescaped
`'{'` / `'}'` becomes `'['` / `']'` while every other character is copied; and
when the rewritten text fails to parse as JSON, the original input value is
returned unchanged (not the trimmed copy). -/
theorem claim_C9_brace_rewrite (jsonP : String → Option PyRunner.JValue) (s : String) :
    (∀ i, i < (PyRunner.pyStrip s).data.length →
      (CppGen.rewriteBraces (PyRunner.pyStrip s)).data.getD i ' ' =
        (if CppGen.inStringAt (PyRunner.pyStrip s).data i = true then
          (PyRunner.pyStrip s).data.getD i ' '
        else if CppGen.escapedAt (PyRunner.pyStrip s).data i = false ∧
            (PyRunner.pyStrip s).data.getD i ' ' = '\x7b' then '['
        else if CppGen.escapedAt (PyRunner.pyStrip s).data i = false ∧
            (PyRunner.pyStrip s).data.getD i ' ' = '\x7d' then ']'
        else (PyRunner.pyStrip s).data.getD i ' ')) ∧
    (['\x7b'].isPrefixOf (PyRunner.pyStrip s).data = true →
     ['\x7d'].isSuffixOf (PyRunner.pyStrip s).data = true →
     jsonP (CppGen.rewriteBraces (PyRunner.pyStrip s)) = Option.none →
     CppGen.convertCppToJson jsonP s = .raw s) := by
  constructor
  · intro i hi
    have hd : (CppGen.rewriteBraces (PyRunner.pyStrip s)).data =
        CppGen.rewriteGo false false (PyRunner.pyStrip s).data := rfl
    rw [hd, CppGen.rewriteGo_getD _ _ _ i hi,
      (CppGen.stAt_spec _ i (le_of_lt hi)).1, (CppGen.stAt_spec _ i (le_of_lt hi)).2,
      CppGen.outChar_spec]
  · intro h1 h2 h3
    simp [CppGen.convertCppToJson, h1, h2, h3]

/-- C9 witness: on the concrete input `{"a}",2}` the outer braces are
rewritten to brackets, the brace inside the quoted string is untouched, and
with a failing JSON parse the original value is returned. -/
theorem claim_C9_witness :
    (CppGen.rewriteBraces (PyRunner.pyStrip "\x7b\"a\x7d\",2\x7d")).data.getD 0 ' ' = '[' ∧
    (CppGen.rewriteBraces (PyRunner.pyStrip "\x7b\"a\x7d\",2\x7d")).data.getD 3 ' ' = '\x7d' ∧
    (CppGen.rewriteBraces (PyRunner.pyStrip "\x7b\"a\x7d\",2\x7d")).data.getD 7 ' ' = ']' ∧
    CppGen.convertCppToJson (fun _ => Option.none) "\x7b\"a\x7d\",2\x7d" =
      .raw "\x7b\"a\x7d\",2\x7d" := by
  have h := claim_C9_brace_rewrite (fun _ => Option.none) "\x7b\"a\x7d\",2\x7d"
  refine ⟨?_, ?_, ?_, ?_⟩
  · rw [h.1 0 (by decide)]; decide
  · rw [h.1 3 (by decide)]; decide
  · rw [h.1 7 (by decide)]; decide
  · exact h.2 (by decide) (by decide) rfl

/-- C1 (amended): in the Python runner's `deep_equals`, an `Int` is never
equal to a `Float`, regardless of numeric magnitude (the strict
`type(a) != type(b)` test rejects the pair before any value comparison). -/
theorem claim_C1_int_float_strict (n : ℤ) (v : PFloat) :
    PyRunner.deep_equals (.int n) (.float v) = false ∧
    PyRunner.deep_equals (.float v) (.int n) = false := by
  constructor <;> simp [PyRunner.deep_equals]

/-- C1 counterexample: the claim is false for the Java runner's `deepEquals`,
cited as one of its sources — any two `Number`s compare by double value, so
`Integer 1` equals `Double 1.0`. -/
theorem claim_C1_cex :
    JavaRunner.deepEquals (.jint 1) (.jdouble (.val 1)) = true := by
  simp [JavaRunner.deepEquals, JavaRunner.jIsNum, JavaRunner.jToDouble, pfIsNan, pfEq]

/-- C2 (amended): in the Python runner's `deep_equals`, two `Float`s are equal
iff both are NaN, or neither is NaN and they are exactly value-equal — no
epsilon tolerance. -/
theorem claim_C2_float_exact (x y : PFloat) :
    PyRunner.deep_equals (.float x) (.float y) = true ↔
      ((x = .nan ∧ y = .nan) ∨ (x = y ∧ x ≠ .nan)) := by
  cases x <;> cases y <;> simp [PyRunner.deep_equals, pfIsNan, pfEq]

/-- C2 witness: NaN equals NaN, and NaN does not equal 1.0, in the Python
comparator. -/
theorem claim_C2_witness :
    PyRunner.deep_equals (.float .nan) (.float .nan) = true ∧
    PyRunner.deep_equals (.float .nan) (.float (.val 1)) = false := by
  refine ⟨(claim_C2_float_exact .nan .nan).mpr (Or.inl ⟨rfl, rfl⟩), ?_⟩
  simp [PyRunner.deep_equals, pfIsNan, pfEq]

/-- C2 counterexample: the claim is false for the C# runner's `DeepEquals`,
cited as one of its sources — it applies an absolute epsilon of `0.0000001`,
so the distinct doubles 1.00000001 and 1.0 compare equal. -/
theorem claim_C2_cex :
    CSharpRunner.DeepEquals (.cdouble (.val (100000001 / 100000000))) (.cdouble (.val 1)) =
      true ∧
    (100000001 / 100000000 : ℚ) ≠ 1 := by
  constructor
  · simp [CSharpRunner.DeepEquals, CSharpRunner.csIsNumeric, CSharpRunner.csToDouble, pfIsNan,
      pfSub, pfAbs, pfLt]
    rw [abs_of_pos (by norm_num)]
    norm_num
  · norm_num

/-- C3 (amended): in the Python runner's `deep_equals`, two `Mapping`s with
different key sets are unequal *in both argument orders* — a key present on
one side and absent on the other makes the comparison false whichever side
carries the extra key, with no default-value substitution. -/
theorem claim_C3_dict_key_absent (u v : List (String × PyRunner.PyValue)) (k : String)
    (h1 : k ∈ PyRunner.kvKeys u) (h2 : k ∉ PyRunner.kvKeys v) :
    PyRunner.deep_equals (.dict u) (.dict v) = false ∧
    PyRunner.deep_equals (.dict v) (.dict u) = false := by
  constructor
  · have hset : PyRunner.strSetEq (PyRunner.kvKeys u) (PyRunner.kvKeys v) = false := by
      simp only [PyRunner.strSetEq, Bool.and_eq_false_iff]
      left
      simp only [List.all_eq_false]
      exact ⟨k, h1, by simpa using h2⟩
    simp [PyRunner.deep_equals, hset]
  · have hset : PyRunner.strSetEq (PyRunner.kvKeys v) (PyRunner.kvKeys u) = false := by
      simp only [PyRunner.strSetEq, Bool.and_eq_false_iff]
      right
      simp only [List.all_eq_false]
      exact ⟨k, h1, by simpa using h2⟩
    simp [PyRunner.deep_equals, hset]

/-- C3 witness: the spec's own example `equals({a:1}, {a:1,b:2}) = false` —
the extra key on the *second* side — and the reverse orientation. -/
theorem claim_C3_witness :
    PyRunner.deep_equals (.dict [("a", .int 1)]) (.dict [("a", .int 1), ("b", .int 2)]) =
      false ∧
    PyRunner.deep_equals (.dict [("a", .int 1), ("b", .int 2)]) (.dict [("a", .int 1)]) =
      false :=
  ⟨(claim_C3_dict_key_absent [("a", .int 1), ("b", .int 2)] [("a", .int 1)] "b"
      (by simp [PyRunner.kvKeys]) (by simp [PyRunner.kvKeys])).2,
   (claim_C3_dict_key_absent [("a", .int 1), ("b", .int 2)] [("a", .int 1)] "b"
      (by simp [PyRunner.kvKeys]) (by simp [PyRunner.kvKeys])).1⟩

/-- C3 counterexample: the claim is false for the Java runner's `deepEquals`,
cited as one of its sources — the native key `Integer 1` is absent from the
right-hand map (whose only key is the string `"1"`), yet the maps compare
equal, because the comparator falls back to the key's string form. -/
theorem claim_C3_cex :
    JavaRunner.deepEquals (.jmap [(.jint 1, .jint 5)]) (.jmap [(.jstr "1", .jint 5)]) = true ∧
    JavaRunner.javaObjEq (.jint 1) (.jstr "1") = false := by
  constructor
  · simp only [JavaRunner.deepEquals, JavaRunner.jIsNum]
    norm_num
    simp only [JavaRunner.deepEqMap, JavaRunner.findCmp, JavaRunner.javaObjEq,
      JavaRunner.valueOf]
    norm_num
    simp [JavaRunner.deepEquals, JavaRunner.jIsNum, JavaRunner.jToDouble, pfEq]
    decide
  · simp [JavaRunner.javaObjEq]

/-- Element-wise characterization of the comparator's zipped list walk, under
the already-checked length equality. -/
theorem deepList_get : ∀ (xs ys : List PyRunner.PyValue), xs.length = ys.length →
    (PyRunner.deepList xs ys = true ↔
      ∀ i (h1 : i < xs.length) (h2 : i < ys.length),
        PyRunner.deep_equals (xs.get ⟨i, h1⟩) (ys.get ⟨i, h2⟩) = true)
  | [], [] => by simp [PyRunner.deepList]
  | [], y :: ys => by simp
  | x :: xs, [] => by simp
  | x :: xs, y :: ys => by
    intro h
    have hlen : xs.length = ys.length := by simpa using h
    simp only [PyRunner.deepList, Bool.and_eq_true]
    constructor
    · rintro ⟨hx, hrest⟩ i h1 h2
      cases i with
      | zero => simpa using hx
      | succ i =>
        exact ((deepList_get xs ys hlen).mp hrest) i (by simpa using h1) (by simpa using h2)
    · intro hall
      refine ⟨by simpa using hall 0 (by simp) (by simp), ?_⟩
      exact (deepList_get xs ys hlen).mpr
        (fun i h1 h2 => by simpa using hall (i + 1) (by simpa using h1) (by simpa using h2))

/-- C7: in the Python runner's `deep_equals`, a `Sequence` (list) is never
equal to a `Tuple` even with identical elements, in either order; and
list-vs-list / tuple-vs-tuple equality holds iff the lengths are equal and the
elements are pairwise equal in order. -/
theorem claim_C7_seq_tuple_strict (xs ys : List PyRunner.PyValue) :
    PyRunner.deep_equals (.list xs) (.tuple ys) = false ∧
    PyRunner.deep_equals (.tuple xs) (.list ys) = false ∧
    (PyRunner.deep_equals (.list xs) (.list ys) = true ↔
      xs.length = ys.length ∧
        ∀ i (h1 : i < xs.length) (h2 : i < ys.length),
          PyRunner.deep_equals (xs.get ⟨i, h1⟩) (ys.get ⟨i, h2⟩) = true) ∧
    (PyRunner.deep_equals (.tuple xs) (.tuple ys) = true ↔
      xs.length = ys.length ∧
        ∀ i (h1 : i < xs.length) (h2 : i < ys.length),
          PyRunner.deep_equals (xs.get ⟨i, h1⟩) (ys.get ⟨i, h2⟩) = true) := by
  refine ⟨by simp [PyRunner.deep_equals], by simp [PyRunner.deep_equals], ?_, ?_⟩ <;>
  · simp only [PyRunner.deep_equals, Bool.and_eq_true, beq_iff_eq]
    constructor
    · rintro ⟨hlen, hdl⟩
      exact ⟨hlen, (deepList_get xs ys hlen).mp hdl⟩
    · rintro ⟨hlen, hall⟩
      exact ⟨hlen, (deepList_get xs ys hlen).mpr hall⟩

/-- C7 witness: the spec's concrete scenario — `[1,2,3]` as a list does not
equal `(1,2,3)` as a tuple, while equal lists compare equal. -/
theorem claim_C7_witness :
    PyRunner.deep_equals (.list [.int 1, .int 2, .int 3])
      (.tuple [.int 1, .int 2, .int 3]) = false ∧
    PyRunner.deep_equals (.list [.int 1, .int 2]) (.list [.int 1, .int 2]) = true := by
  refine ⟨(claim_C7_seq_tuple_strict _ _).1, ?_⟩
  refine (claim_C7_seq_tuple_strict [.int 1, .int 2] [.int 1, .int 2]).2.2.1.mpr ⟨rfl, ?_⟩
  intro i h1 h2
  have hi : i < 2 := by simpa using h1
  interval_cases i <;> simp [PyRunner.deep_equals]

/-- C8 (amended): the Python runner's `serialize` wraps every non-finite
float in the `float` type marker with the corresponding sentinel string —
never a bare sentinel string. -/
theorem claim_C8_nonfinite_wrapped :
    PyRunner.serialize (.float .nan) =
      .obj [("__type__", .s "float"), ("value", .s "NaN")] ∧
    PyRunner.serialize (.float .inf) =
      .obj [("__type__", .s "float"), ("value", .s "Infinity")] ∧
    PyRunner.serialize (.float .ninf) =
      .obj [("__type__", .s "float"), ("value", .s "-Infinity")] := by
  refine ⟨?_, ?_, ?_⟩ <;> simp [PyRunner.serialize, pfIsNan]

/-- C8 counterexample: the claim is false for the TypeScript runner's
`__serialize__`, cited as one of its sources — NaN serializes to the *bare*
string `'NaN'`, which is not the float-marker wrapper object. -/
theorem claim_C8_cex :
    TSRunner.tsSerialize (.tnum .nan) = .tstr "NaN" ∧
    TSRunner.tsSerialize (.tnum .inf) = .tstr "Infinity" ∧
    TSRunner.TSVal.tstr "NaN" ≠
      TSRunner.TSVal.tobj [("__type__", .tstr "float"), ("value", .tstr "NaN")] := by
  refine ⟨by simp [TSRunner.tsSerialize], by simp [TSRunner.tsSerialize], by simp⟩

/-- C10: in the Python runner, a `Bool` is never `deep_equals`-equal to an
`Int` (in either order), and `serialize` emits a boolean as a plain JSON
boolean, not as an `int`-marker object — the bool test precedes the int test
in both operations. -/
theorem claim_C10_bool_not_int (b : Bool) (n : ℤ) :
    PyRunner.deep_equals (.bool b) (.int n) = false ∧
    PyRunner.deep_equals (.int n) (.bool b) = false ∧
    PyRunner.serialize (.bool b) = .b b := by
  refine ⟨?_, ?_, ?_⟩ <;> simp [PyRunner.deep_equals, PyRunner.serialize]

/-- C5: `parse_expected_value` is total and, when every structured-parse rule
fails — the JSON parse, each literal keyword, each constructor-call rule, each
numeric pattern, and the normalized literal eval — it returns the *original*
input string verbatim, surrounding whitespace included, not the trimmed
copy. -/
theorem claim_C5_parse_fallback (jsonP : String → Option PyRunner.JValue)
    (litP : String → Option PyRunner.PyValue) (val : String)
    (hjson : jsonP (PyRunner.pyStrip val) = Option.none)
    (hkw : PyRunner.pyStrip val ∉
      (["True", "False", "None", "undefined", "NaN", "Infinity", "-Infinity"] : List String))
    (hempty : PyRunner.pyStrip val ∉
      (["frozenset()", "Counter()", "OrderedDict()", "deque()", "defaultdict()"] : List String))
    (hfs : PyRunner.fsTry litP (PyRunner.pyStrip val) = Option.none)
    (hcnt : PyRunner.counterTry litP (PyRunner.pyStrip val) = Option.none)
    (hod : PyRunner.odTry litP (PyRunner.pyStrip val) = Option.none)
    (hdq : PyRunner.dequeTry litP (PyRunner.pyStrip val) = Option.none)
    (hrg : PyRunner.rangeTry (PyRunner.pyStrip val) = Option.none)
    (hpow : PyRunner.powTry (PyRunner.pyStrip val) = Option.none)
    (hint : PyRunner.isIntLit (PyRunner.pyStrip val) = false)
    (hflt : PyRunner.isFloatLit (PyRunner.pyStrip val) = false)
    (hlit : litP (PyRunner.normalizeBools (PyRunner.pyStrip val)) = Option.none) :
    PyRunner.parse_expected_value jsonP litP (.text val) = .str val := by
  simp only [List.mem_cons, List.mem_singleton, not_or] at hkw hempty
  obtain ⟨k1, k2, k3, k4, k5, k6, k7, _⟩ := hkw
  obtain ⟨e1, e2, e3, e4, e5, _⟩ := hempty
  have hkw0 : PyRunner.tryKeywords (PyRunner.pyStrip val) = Option.none := by
    simp [PyRunner.tryKeywords, k1, k2, k3, k4, k5, k6, k7]
  have hctor0 : PyRunner.tryCtor litP (PyRunner.pyStrip val) = Option.none := by
    simp [PyRunner.tryCtor, e1, e2, e3, e4, e5, hfs, hcnt, hod, hdq, hrg]
  have hnum0 : PyRunner.tryNums (PyRunner.pyStrip val) = Option.none := by
    simp [PyRunner.tryNums, hpow, hint, hflt]
  simp [PyRunner.parse_expected_value, hjson, hkw0, hctor0, hnum0, hlit]

/-- C5 witness: the whitespace-framed unparsable input `"  hello, world  "`
degrades to exactly that string, whitespace intact. -/
theorem claim_C5_witness :
    PyRunner.parse_expected_value (fun _ => Option.none) (fun _ => Option.none)
      (.text "  hello, world  ") = .str "  hello, world  " :=
  claim_C5_parse_fallback (fun _ => Option.none) (fun _ => Option.none) "  hello, world  "
    rfl (by decide) (by decide) rfl rfl rfl rfl rfl rfl rfl rfl rfl

namespace PyRunner

theorem runBatch_length (evalF : String → Except EvalError PyValue)
    (jsonP : String → Option JValue) (litP : String → Option PyValue) :
    ∀ (i0 : ℕ) (tcs : List TestCase),
      (runBatch evalF jsonP litP i0 tcs).length = tcs.length
  | _, [] => by simp [runBatch]
  | i0, tc :: rest => by
    simp [runBatch, runBatch_length evalF jsonP litP (i0 + 1) rest]

theorem runBatch_get (evalF : String → Except EvalError PyValue)
    (jsonP : String → Option JValue) (litP : String → Option PyValue) :
    ∀ (tcs : List TestCase) (i0 i : ℕ), (h : i < tcs.length) →
      (runBatch evalF jsonP litP i0 tcs).get? i =
        some (runOne evalF jsonP litP (i0 + i) (tcs.get ⟨i, h⟩))
  | [], _, i, h => by simp at h
  | tc :: rest, i0, i, h => by
    cases i with
    | zero => simp [runBatch]
    | succ i =>
      have harith : i0 + 1 + i = i0 + (i + 1) := by omega
      simp only [runBatch, List.get?_cons_succ, List.get_cons_succ]
      rw [runBatch_get evalF jsonP litP rest (i0 + 1) i (by simpa using h), harith]

end PyRunner

/-- C4: the batch runner produces exactly one result record per index, in
input order; at an index whose call raises, the record has that index, a null
`actual`, `passed` false and `error` equal to the fault's kind name, `": "`,
and its message; and every index is still processed (each position holds the
record of its own test case — one failure never suppresses later indices). -/
theorem claim_C4_batch_isolation (evalF : String → Except PyRunner.EvalError PyRunner.PyValue)
    (jsonP : String → Option PyRunner.JValue) (litP : String → Option PyRunner.PyValue)
    (tcs : List PyRunner.TestCase) :
    (PyRunner.runBatch evalF jsonP litP 0 tcs).length = tcs.length ∧
    (∀ i, (h : i < tcs.length) →
      (PyRunner.runBatch evalF jsonP litP 0 tcs).get? i =
        some (PyRunner.runOne evalF jsonP litP i (tcs.get ⟨i, h⟩))) ∧
    (∀ i, (h : i < tcs.length) → ∀ (k m : String),
      evalF (tcs.get ⟨i, h⟩).call = .error ⟨k, m⟩ →
      (PyRunner.runBatch evalF jsonP litP 0 tcs).get? i =
        some { index := i, actual := .null, expected_serialized := .null,
               passed := false, error := some (k ++ ": " ++ m) }) := by
  refine ⟨PyRunner.runBatch_length evalF jsonP litP 0 tcs, ?_, ?_⟩
  · intro i h
    simpa using PyRunner.runBatch_get evalF jsonP litP tcs 0 i h
  · intro i h k m herr
    have hg := PyRunner.runBatch_get evalF jsonP litP tcs 0 i h
    rw [hg]
    simp only [List.get_eq_getElem] at herr
    simp [PyRunner.runOne, herr]

/-- C4 witness: of three test cases where the second raises `ValueError`, the
runner reports three records, the second being the error record and the third
still being processed. -/
theorem claim_C4_witness :
    (PyRunner.runBatch
        (fun c => if c = "boom(1)" then .error ⟨"ValueError", "bad"⟩ else .ok (.int 3))
        (fun _ => Option.none) (fun _ => Option.none) 0
        [⟨"add(1,2)", .text "3"⟩, ⟨"boom(1)", .text "3"⟩, ⟨"add(1,2)", .text "3"⟩]).length =
      3 ∧
    (PyRunner.runBatch
        (fun c => if c = "boom(1)" then .error ⟨"ValueError", "bad"⟩ else .ok (.int 3))
        (fun _ => Option.none) (fun _ => Option.none) 0
        [⟨"add(1,2)", .text "3"⟩, ⟨"boom(1)", .text "3"⟩, ⟨"add(1,2)", .text "3"⟩]).get? 1 =
      some { index := 1, actual := .null, expected_serialized := .null,
             passed := false, error := some ("ValueError" ++ ": " ++ "bad") } ∧
    (PyRunner.runBatch
        (fun c => if c = "boom(1)" then .error ⟨"ValueError", "bad"⟩ else .ok (.int 3))
        (fun _ => Option.none) (fun _ => Option.none) 0
        [⟨"add(1,2)", .text "3"⟩, ⟨"boom(1)", .text "3"⟩, ⟨"add(1,2)", .text "3"⟩]).get? 2 =
      some (PyRunner.runOne
        (fun c => if c = "boom(1)" then .error ⟨"ValueError", "bad"⟩ else .ok (.int 3))
        (fun _ => Option.none) (fun _ => Option.none) 2 ⟨"add(1,2)", .text "3"⟩) := by
  refine ⟨(claim_C4_batch_isolation _ _ _ _).1, ?_, ?_⟩
  · exact (claim_C4_batch_isolation _ _ _ _).2.2 1 (by decide) "ValueError" "bad" rfl
  · simpa using (claim_C4_batch_isolation _ _ _ _).2.1 2 (by decide)

namespace PyRunner

theorem serializeList_eq_map : ∀ xs : List PyValue, serializeList xs = xs.map serialize
  | [] => by simp [serializeList]
  | x :: xs => by simp [serializeList, serializeList_eq_map xs]

theorem serializeKVs_eq_map : ∀ kvs : List (String × PyValue),
    serializeKVs kvs = kvs.map (fun p => (p.1, serialize p.2))
  | [] => by simp [serializeKVs]
  | (k, v) :: rest => by simp [serializeKVs, serializeKVs_eq_map rest]

theorem convertList_eq_map : ∀ xs : List JValue, convertList xs = xs.map convert_expected
  | [] => by simp [convertList]
  | x :: xs => by simp [convertList, convertList_eq_map xs]

theorem convertKVs_eq_map : ∀ kvs : List (String × JValue),
    convertKVs kvs = kvs.map (fun p => (p.1, convert_expected p.2))
  | [] => by simp [convertKVs]
  | (k, v) :: rest => by simp [convertKVs, convertKVs_eq_map rest]

theorem rtvList (xs : List PyValue) :
    convertList (serializeList xs) = xs.map (fun x => convert_expected (serialize x)) := by
  rw [serializeList_eq_map, convertList_eq_map, List.map_map]
  rfl

theorem rtvKVs (kvs : List (String × PyValue)) :
    convertKVs (serializeKVs kvs) =
      kvs.map (fun p => (p.1, convert_expected (serialize p.2))) := by
  rw [serializeKVs_eq_map, convertKVs_eq_map, List.map_map]
  rfl

theorem nanFreeL_iff : ∀ xs : List PyValue, (nanFreeL xs = true ↔ ∀ x ∈ xs, nanFree x = true)
  | [] => by simp [nanFreeL]
  | x :: xs => by simp [nanFreeL, nanFreeL_iff xs]

theorem nanFreeKV_iff : ∀ kvs : List (String × PyValue),
    (nanFreeKV kvs = true ↔ ∀ p ∈ kvs, nanFree p.2 = true)
  | [] => by simp [nanFreeKV]
  | (k, v) :: rest => by
    simp [nanFreeKV, nanFreeKV_iff rest]

theorem rtSafeL_iff : ∀ xs : List PyValue,
    (rtSafeL xs = true ↔ ∀ x ∈ xs, roundTripSafe x = true)
  | [] => by simp [rtSafeL]
  | x :: xs => by simp [rtSafeL, rtSafeL_iff xs]

theorem rtSafeKV_iff : ∀ kvs : List (String × PyValue),
    (rtSafeKV kvs = true ↔ ∀ p ∈ kvs, roundTripSafe p.2 = true)
  | [] => by simp [rtSafeKV]
  | (k, v) :: rest => by simp [rtSafeKV, rtSafeKV_iff rest]

theorem pyInL_of {a b : PyValue} {t : List PyValue} (hb : b ∈ t) (h : pyEq a b = true) :
    pyInL a t = true := by
  induction t with
  | nil => simp at hb
  | cons c cs ih =>
    rcases List.mem_cons.mp hb with rfl | hb2
    · simp [pyInL, h]
    · simp [pyInL, ih hb2]

theorem pyInR_of {a b : PyValue} {s : List PyValue} (ha : a ∈ s) (h : pyEq a b = true) :
    pyInR b s = true := by
  induction s with
  | nil => simp at ha
  | cons c cs ih =>
    rcases List.mem_cons.mp ha with rfl | ha2
    · simp [pyInR, h]
    · simp [pyInR, ih ha2]

theorem pySubAB_of : ∀ {s t : List PyValue}, (∀ a ∈ s, pyInL a t = true) →
    pySubAB s t = true := by
  intro s
  induction s with
  | nil => intro t _; simp [pySubAB]
  | cons a rest ih =>
    intro t h
    simp only [pySubAB, Bool.and_eq_true]
    exact ⟨h a (by simp), ih (fun b hb => h b (by simp [hb]))⟩

theorem pySubBA_of : ∀ {t s : List PyValue}, (∀ b ∈ t, pyInR b s = true) →
    pySubBA t s = true := by
  intro t
  induction t with
  | nil => intro s _; simp [pySubBA]
  | cons b rest ih =>
    intro s h
    simp only [pySubBA, Bool.and_eq_true]
    exact ⟨h b (by simp), ih (fun c hc => h c (by simp [hc]))⟩

theorem pyEqList_map (f : PyValue → PyValue) :
    ∀ xs : List PyValue, (∀ x ∈ xs, pyEq (f x) x = true) →
      pyEqList (xs.map f) xs = true
  | [], _ => by simp [pyEqList]
  | x :: xs, h => by
    simp only [List.map_cons, pyEqList, Bool.and_eq_true]
    exact ⟨h x (by simp), pyEqList_map f xs (fun y hy => h y (by simp [hy]))⟩

theorem pyPairMem_of {k : String} {v w : PyValue} {kvs : List (String × PyValue)}
    (hmem : (k, w) ∈ kvs) (h : pyEq v w = true) : pyPairMem k v kvs = true := by
  induction kvs with
  | nil => simp at hmem
  | cons p rest ih =>
    rcases List.mem_cons.mp hmem with heq | hmem2
    · rw [← heq]
      simp [pyPairMem, h]
    · cases p with
      | mk k2 v2 => simp [pyPairMem, ih hmem2]

theorem pyDictEq_of (kvs : List (String × PyValue)) :
    ∀ sub : List (String × PyValue), (∀ p ∈ sub, pyPairMem p.1 p.2 kvs = true) →
      pyDictEq sub kvs = true
  | [], _ => by simp [pyDictEq]
  | (k, v) :: rest, h => by
    simp only [pyDictEq, Bool.and_eq_true]
    exact ⟨h (k, v) (by simp), pyDictEq_of kvs rest (fun q hq => h q (by simp [hq]))⟩

theorem pyOrdEq_map (f : PyValue → PyValue) :
    ∀ kvs : List (String × PyValue), (∀ p ∈ kvs, pyEq (f p.2) p.2 = true) →
      pyOrdEq (kvs.map fun p => (p.1, f p.2)) kvs = true
  | [], _ => by simp [pyOrdEq]
  | (k, v) :: rest, h => by
    simp only [List.map_cons, pyOrdEq, Bool.and_eq_true]
    exact ⟨⟨by simp, h (k, v) (by simp)⟩, pyOrdEq_map f rest (fun q hq => h q (by simp [hq]))⟩

theorem deepList_map (f : PyValue → PyValue) :
    ∀ xs : List PyValue, (∀ x ∈ xs, deep_equals (f x) x = true) →
      deepList (xs.map f) xs = true
  | [], _ => by simp [deepList]
  | x :: xs, h => by
    simp only [List.map_cons, deepList, Bool.and_eq_true]
    exact ⟨h x (by simp), deepList_map f xs (fun y hy => h y (by simp [hy]))⟩

theorem deepPair_of {k : String} {v w : PyValue} {kvs : List (String × PyValue)}
    (hmem : (k, w) ∈ kvs) (h : deep_equals v w = true) : deepPair k v kvs = true := by
  induction kvs with
  | nil => simp at hmem
  | cons p rest ih =>
    rcases List.mem_cons.mp hmem with heq | hmem2
    · rw [← heq]
      simp [deepPair, h]
    · cases p with
      | mk k2 v2 => simp [deepPair, ih hmem2]

theorem deepKV_of (kvs : List (String × PyValue)) :
    ∀ sub : List (String × PyValue), (∀ p ∈ sub, deepPair p.1 p.2 kvs = true) →
      deepKV sub kvs = true
  | [], _ => by simp [deepKV]
  | (k, v) :: rest, h => by
    simp only [deepKV, Bool.and_eq_true]
    exact ⟨h (k, v) (by simp), deepKV_of kvs rest (fun q hq => h q (by simp [hq]))⟩

theorem strSetEq_refl (u : List String) : strSetEq u u = true := by
  simp only [strSetEq, Bool.and_eq_true, List.all_eq_true]
  refine ⟨fun k hk => ?_, fun k hk => ?_⟩ <;> simpa [List.contains] using List.elem_eq_true_of_mem hk

/-- The converted, re-sorted wire form of a set is set-equal to the original
element list whenever every element survives its own round trip under
Python `==`. -/
theorem setRoundTrip (xs : List PyValue)
    (hall : ∀ x ∈ xs, pyEq (convert_expected (serialize x)) x = true) :
    pySetEq
      (convertList
        (List.insertionSort (fun a b => keyLe a b = true) (serializeList xs))) xs = true := by
  have hperm : List.Perm
      (List.insertionSort (fun a b => keyLe a b = true) (serializeList xs))
      (serializeList xs) := List.perm_insertionSort _ _
  rw [pySetEq, Bool.and_eq_true]
  constructor
  · apply pySubAB_of
    intro a ha
    rw [convertList_eq_map] at ha
    obtain ⟨y, hy, rfl⟩ := List.mem_map.mp ha
    have hy2 : y ∈ serializeList xs := hperm.mem_iff.mp hy
    rw [serializeList_eq_map] at hy2
    obtain ⟨x, hx, rfl⟩ := List.mem_map.mp hy2
    exact pyInL_of hx (hall x hx)
  · apply pySubBA_of
    intro b hb
    have h1 : serialize b ∈ serializeList xs := by
      rw [serializeList_eq_map]
      exact List.mem_map_of_mem _ hb
    have h2 : serialize b ∈
        List.insertionSort (fun a b => keyLe a b = true) (serializeList xs) :=
      hperm.mem_iff.mpr h1
    have h3 : convert_expected (serialize b) ∈
        convertList (List.insertionSort (fun a b => keyLe a b = true) (serializeList xs)) := by
      rw [convertList_eq_map]
      exact List.mem_map_of_mem _ h2
    exact pyInR_of h3 (hall b hb)

end PyRunner

namespace PyRunner

theorem conv_ser_int (n : ℤ) : convert_expected (serialize (.int n)) = .int n := by
  simp [serialize, convert_expected, jLookup, findPayload, payloadConv, dispatchMarker, pyIntOf]

theorem conv_ser_float_nan : convert_expected (serialize (.float .nan)) = .float .nan := by
  simp [serialize, pfIsNan, convert_expected, jLookup, findPayload, payloadConv,
    dispatchMarker, pyFloatOf]

theorem conv_ser_float_inf : convert_expected (serialize (.float .inf)) = .float .inf := by
  simp [serialize, pfIsNan, convert_expected, jLookup, findPayload, payloadConv,
    dispatchMarker, pyFloatOf]

theorem conv_ser_float_ninf : convert_expected (serialize (.float .ninf)) = .float .ninf := by
  simp [serialize, pfIsNan, convert_expected, jLookup, findPayload, payloadConv,
    dispatchMarker, pyFloatOf]

theorem conv_ser_float_val (q : ℚ) :
    convert_expected (serialize (.float (.val q))) = .float (.val q) := by
  simp [serialize, pfIsNan, convert_expected, jLookup, findPayload, payloadConv,
    dispatchMarker, pyFloatOf]

theorem conv_ser_list (xs : List PyValue) :
    convert_expected (serialize (.list xs)) = .list (convertList (serializeList xs)) := by
  simp [serialize, convert_expected]

theorem conv_ser_tuple (xs : List PyValue) :
    convert_expected (serialize (.tuple xs)) = .tuple (convertList (serializeList xs)) := by
  simp [serialize, convert_expected, jLookup, findPayload, payloadConv, dispatchMarker]

theorem conv_ser_set (xs : List PyValue) :
    convert_expected (serialize (.set xs)) =
      .set (convertList
        (List.insertionSort (fun a b => keyLe a b = true) (serializeList xs))) := by
  simp [serialize, convert_expected, jLookup, findPayload, payloadConv, dispatchMarker]

theorem conv_ser_frozenset (xs : List PyValue) :
    convert_expected (serialize (.frozenset xs)) =
      .frozenset (convertList
        (List.insertionSort (fun a b => keyLe a b = true) (serializeList xs))) := by
  simp [serialize, convert_expected, jLookup, findPayload, payloadConv, dispatchMarker]

theorem conv_ser_deque (xs : List PyValue) :
    convert_expected (serialize (.deque xs)) = .deque (convertList (serializeList xs)) := by
  simp [serialize, convert_expected, jLookup, findPayload, payloadConv, dispatchMarker]

theorem conv_ser_dict (kvs : List (String × PyValue)) :
    convert_expected (serialize (.dict kvs)) = .dict (convertKVs (serializeKVs kvs)) := by
  simp [serialize, convert_expected, jLookup, findPayload, payloadConv, dispatchMarker]

theorem conv_ser_counter (kvs : List (String × PyValue)) :
    convert_expected (serialize (.counter kvs)) = .counter (convertKVs (serializeKVs kvs)) := by
  simp [serialize, convert_expected, jLookup, findPayload, payloadConv, dispatchMarker]

theorem conv_ser_odict (kvs : List (String × PyValue)) :
    convert_expected (serialize (.odict kvs)) = .odict (convertKVs (serializeKVs kvs)) := by
  simp [serialize, convert_expected, jLookup, findPayload, payloadConv, dispatchMarker]

theorem conv_ser_ddict (kvs : List (String × PyValue)) :
    convert_expected (serialize (.ddict kvs)) = .ddict (convertKVs (serializeKVs kvs)) := by
  simp [serialize, convert_expected, jLookup, findPayload, payloadConv, dispatchMarker]

/-- Every NaN-free value survives the serialize/convert round trip up to
Python `==`. -/
theorem rt_pyEq : ∀ (N : ℕ) (e : PyValue), sizeOf e ≤ N → nanFree e = true →
    pyEq (convert_expected (serialize e)) e = true := by
  intro N
  induction N using Nat.strong_induction_on with
  | _ N IH =>
    intro e hsz hnf
    have IHe : ∀ x : PyValue, sizeOf x < sizeOf e → nanFree x = true →
        pyEq (convert_expected (serialize x)) x = true := fun x hx hnfx =>
      IH (sizeOf x) (lt_of_lt_of_le hx hsz) x le_rfl hnfx
    clear IH hsz
    cases e with
    | none => simp [serialize, convert_expected, pyEq]
    | bool b => simp [serialize, convert_expected, pyEq]
    | int n => rw [conv_ser_int]; simp [pyEq]
    | float v =>
      cases v with
      | nan => simp [nanFree, pfIsNan] at hnf
      | inf => rw [conv_ser_float_inf]; simp [pyEq, pfEq]
      | ninf => rw [conv_ser_float_ninf]; simp [pyEq, pfEq]
      | val q => rw [conv_ser_float_val]; simp [pyEq, pfEq]
    | str s => simp [serialize, convert_expected, pyEq]
    | list xs =>
      have hel : ∀ x ∈ xs, pyEq (convert_expected (serialize x)) x = true := by
        intro x hx
        refine IHe x ?_ ?_
        · have h1 := List.sizeOf_lt_of_mem hx
          simp
          omega
        · exact (nanFreeL_iff xs).mp (by simpa [nanFree] using hnf) x hx
      rw [conv_ser_list, rtvList]
      simp only [pyEq, List.length_map, beq_self_eq_true, Bool.true_and]
      exact pyEqList_map _ xs hel
    | tuple xs =>
      have hel : ∀ x ∈ xs, pyEq (convert_expected (serialize x)) x = true := by
        intro x hx
        refine IHe x ?_ ?_
        · have h1 := List.sizeOf_lt_of_mem hx
          simp
          omega
        · exact (nanFreeL_iff xs).mp (by simpa [nanFree] using hnf) x hx
      rw [conv_ser_tuple, rtvList]
      simp only [pyEq, List.length_map, beq_self_eq_true, Bool.true_and]
      exact pyEqList_map _ xs hel
    | deque xs =>
      have hel : ∀ x ∈ xs, pyEq (convert_expected (serialize x)) x = true := by
        intro x hx
        refine IHe x ?_ ?_
        · have h1 := List.sizeOf_lt_of_mem hx
          simp
          omega
        · exact (nanFreeL_iff xs).mp (by simpa [nanFree] using hnf) x hx
      rw [conv_ser_deque, rtvList]
      simp only [pyEq, List.length_map, beq_self_eq_true, Bool.true_and]
      exact pyEqList_map _ xs hel
    | set xs =>
      have hel : ∀ x ∈ xs, pyEq (convert_expected (serialize x)) x = true := by
        intro x hx
        refine IHe x ?_ ?_
        · have h1 := List.sizeOf_lt_of_mem hx
          simp
          omega
        · exact (nanFreeL_iff xs).mp (by simpa [nanFree] using hnf) x hx
      rw [conv_ser_set]
      have h := setRoundTrip xs hel
      simp only [pySetEq] at h
      simpa only [pyEq] using h
    | frozenset xs =>
      have hel : ∀ x ∈ xs, pyEq (convert_expected (serialize x)) x = true := by
        intro x hx
        refine IHe x ?_ ?_
        · have h1 := List.sizeOf_lt_of_mem hx
          simp
          omega
        · exact (nanFreeL_iff xs).mp (by simpa [nanFree] using hnf) x hx
      rw [conv_ser_frozenset]
      have h := setRoundTrip xs hel
      simp only [pySetEq] at h
      simpa only [pyEq] using h
    | dict kvs =>
      have hel : ∀ p ∈ kvs, pyEq (convert_expected (serialize p.2)) p.2 = true := by
        intro p hp
        obtain ⟨k, v⟩ := p
        refine IHe v ?_ ?_
        · have h1 := List.sizeOf_lt_of_mem hp
          simp at h1 ⊢
          omega
        · exact (nanFreeKV_iff kvs).mp (by simpa [nanFree] using hnf) (k, v) hp
      rw [conv_ser_dict, rtvKVs]
      simp only [pyEq, List.length_map, beq_self_eq_true, Bool.true_and]
      refine pyDictEq_of kvs _ (fun p hp => ?_)
      rw [List.mem_map] at hp
      obtain ⟨q, hq, rfl⟩ := hp
      exact pyPairMem_of (show (q.1, q.2) ∈ kvs by simpa using hq) (hel q hq)
    | counter kvs =>
      have hel : ∀ p ∈ kvs, pyEq (convert_expected (serialize p.2)) p.2 = true := by
        intro p hp
        obtain ⟨k, v⟩ := p
        refine IHe v ?_ ?_
        · have h1 := List.sizeOf_lt_of_mem hp
          simp at h1 ⊢
          omega
        · exact (nanFreeKV_iff kvs).mp (by simpa [nanFree] using hnf) (k, v) hp
      rw [conv_ser_counter, rtvKVs]
      simp only [pyEq, List.length_map, beq_self_eq_true, Bool.true_and]
      refine pyDictEq_of kvs _ (fun p hp => ?_)
      rw [List.mem_map] at hp
      obtain ⟨q, hq, rfl⟩ := hp
      exact pyPairMem_of (show (q.1, q.2) ∈ kvs by simpa using hq) (hel q hq)
    | ddict kvs =>
      have hel : ∀ p ∈ kvs, pyEq (convert_expected (serialize p.2)) p.2 = true := by
        intro p hp
        obtain ⟨k, v⟩ := p
        refine IHe v ?_ ?_
        · have h1 := List.sizeOf_lt_of_mem hp
          simp at h1 ⊢
          omega
        · exact (nanFreeKV_iff kvs).mp (by simpa [nanFree] using hnf) (k, v) hp
      rw [conv_ser_ddict, rtvKVs]
      simp only [pyEq, List.length_map, beq_self_eq_true, Bool.true_and]
      refine pyDictEq_of kvs _ (fun p hp => ?_)
      rw [List.mem_map] at hp
      obtain ⟨q, hq, rfl⟩ := hp
      exact pyPairMem_of (show (q.1, q.2) ∈ kvs by simpa using hq) (hel q hq)
    | odict kvs =>
      have hel : ∀ p ∈ kvs, pyEq (convert_expected (serialize p.2)) p.2 = true := by
        intro p hp
        obtain ⟨k, v⟩ := p
        refine IHe v ?_ ?_
        · have h1 := List.sizeOf_lt_of_mem hp
          simp at h1 ⊢
          omega
        · exact (nanFreeKV_iff kvs).mp (by simpa [nanFree] using hnf) (k, v) hp
      rw [conv_ser_odict, rtvKVs]
      simp only [pyEq]
      exact pyOrdEq_map (fun x => convert_expected (serialize x)) kvs hel

end PyRunner

namespace PyRunner

theorem kvKeys_map (f : PyValue → PyValue) (kvs : List (String × PyValue)) :
    kvKeys (kvs.map fun p => (p.1, f p.2)) = kvKeys kvs := by
  simp [kvKeys, List.map_map, Function.comp]

/-- Every round-trip-safe value survives the serialize/convert round trip up
to `deep_equals`. -/
theorem rt_deep : ∀ (N : ℕ) (x : PyValue), sizeOf x ≤ N → roundTripSafe x = true →
    deep_equals (convert_expected (serialize x)) x = true := by
  intro N
  induction N using Nat.strong_induction_on with
  | _ N IH =>
    intro e hsz hsf
    have IHe : ∀ x : PyValue, sizeOf x < sizeOf e → roundTripSafe x = true →
        deep_equals (convert_expected (serialize x)) x = true := fun x hx hsx =>
      IH (sizeOf x) (lt_of_lt_of_le hx hsz) x le_rfl hsx
    clear IH hsz
    cases e with
    | none => simp [serialize, convert_expected, deep_equals]
    | bool b => simp [serialize, convert_expected, deep_equals]
    | int n => rw [conv_ser_int]; simp [deep_equals]
    | float v =>
      cases v with
      | nan => rw [conv_ser_float_nan]; simp [deep_equals, pfIsNan]
      | inf => rw [conv_ser_float_inf]; simp [deep_equals, pfIsNan, pfEq]
      | ninf => rw [conv_ser_float_ninf]; simp [deep_equals, pfIsNan, pfEq]
      | val q => rw [conv_ser_float_val]; simp [deep_equals, pfIsNan, pfEq]
    | str s => simp [serialize, convert_expected, deep_equals]
    | list xs =>
      have hel : ∀ x ∈ xs, deep_equals (convert_expected (serialize x)) x = true := by
        intro x hx
        refine IHe x ?_ ?_
        · have h1 := List.sizeOf_lt_of_mem hx
          simp
          omega
        · exact (rtSafeL_iff xs).mp (by simpa [roundTripSafe] using hsf) x hx
      rw [conv_ser_list, rtvList]
      simp only [deep_equals, List.length_map, beq_self_eq_true, Bool.true_and]
      exact deepList_map _ xs hel
    | tuple xs =>
      have hel : ∀ x ∈ xs, deep_equals (convert_expected (serialize x)) x = true := by
        intro x hx
        refine IHe x ?_ ?_
        · have h1 := List.sizeOf_lt_of_mem hx
          simp
          omega
        · exact (rtSafeL_iff xs).mp (by simpa [roundTripSafe] using hsf) x hx
      rw [conv_ser_tuple, rtvList]
      simp only [deep_equals, List.length_map, beq_self_eq_true, Bool.true_and]
      exact deepList_map _ xs hel
    | set xs =>
      have hel : ∀ x ∈ xs, pyEq (convert_expected (serialize x)) x = true := by
        intro x hx
        exact rt_pyEq (sizeOf x) x le_rfl
          ((nanFreeL_iff xs).mp (by simpa [roundTripSafe] using hsf) x hx)
      rw [conv_ser_set]
      simpa only [deep_equals] using setRoundTrip xs hel
    | frozenset xs =>
      have hel : ∀ x ∈ xs, pyEq (convert_expected (serialize x)) x = true := by
        intro x hx
        exact rt_pyEq (sizeOf x) x le_rfl
          ((nanFreeL_iff xs).mp (by simpa [roundTripSafe] using hsf) x hx)
      rw [conv_ser_frozenset]
      simpa only [deep_equals] using setRoundTrip xs hel
    | deque xs =>
      have hel : ∀ x ∈ xs, pyEq (convert_expected (serialize x)) x = true := by
        intro x hx
        exact rt_pyEq (sizeOf x) x le_rfl
          ((nanFreeL_iff xs).mp (by simpa [roundTripSafe] using hsf) x hx)
      rw [conv_ser_deque, rtvList]
      simp only [deep_equals, List.length_map, beq_self_eq_true, Bool.true_and]
      exact pyEqList_map _ xs hel
    | dict kvs =>
      have hel : ∀ p ∈ kvs, deep_equals (convert_expected (serialize p.2)) p.2 = true := by
        intro p hp
        obtain ⟨k, v⟩ := p
        refine IHe v ?_ ?_
        · have h1 := List.sizeOf_lt_of_mem hp
          simp at h1 ⊢
          omega
        · exact (rtSafeKV_iff kvs).mp (by simpa [roundTripSafe] using hsf) (k, v) hp
      rw [conv_ser_dict, rtvKVs]
      simp only [deep_equals, Bool.and_eq_true]
      refine ⟨by
        rw [kvKeys_map (fun x => convert_expected (serialize x)) kvs]
        exact strSetEq_refl _, ?_⟩
      refine deepKV_of kvs _ (fun p hp => ?_)
      rw [List.mem_map] at hp
      obtain ⟨q, hq, rfl⟩ := hp
      exact deepPair_of (show (q.1, q.2) ∈ kvs by simpa using hq) (hel q hq)
    | counter kvs =>
      have hel : ∀ p ∈ kvs, deep_equals (convert_expected (serialize p.2)) p.2 = true := by
        intro p hp
        obtain ⟨k, v⟩ := p
        refine IHe v ?_ ?_
        · have h1 := List.sizeOf_lt_of_mem hp
          simp at h1 ⊢
          omega
        · exact (rtSafeKV_iff kvs).mp (by simpa [roundTripSafe] using hsf) (k, v) hp
      rw [conv_ser_counter, rtvKVs]
      simp only [deep_equals, Bool.and_eq_true]
      refine ⟨by
        rw [kvKeys_map (fun x => convert_expected (serialize x)) kvs]
        exact strSetEq_refl _, ?_⟩
      refine deepKV_of kvs _ (fun p hp => ?_)
      rw [List.mem_map] at hp
      obtain ⟨q, hq, rfl⟩ := hp
      exact deepPair_of (show (q.1, q.2) ∈ kvs by simpa using hq) (hel q hq)
    | odict kvs =>
      have hel : ∀ p ∈ kvs, deep_equals (convert_expected (serialize p.2)) p.2 = true := by
        intro p hp
        obtain ⟨k, v⟩ := p
        refine IHe v ?_ ?_
        · have h1 := List.sizeOf_lt_of_mem hp
          simp at h1 ⊢
          omega
        · exact (rtSafeKV_iff kvs).mp (by simpa [roundTripSafe] using hsf) (k, v) hp
      rw [conv_ser_odict, rtvKVs]
      simp only [deep_equals, Bool.and_eq_true]
      refine ⟨by
        rw [kvKeys_map (fun x => convert_expected (serialize x)) kvs]
        exact strSetEq_refl _, ?_⟩
      refine deepKV_of kvs _ (fun p hp => ?_)
      rw [List.mem_map] at hp
      obtain ⟨q, hq, rfl⟩ := hp
      exact deepPair_of (show (q.1, q.2) ∈ kvs by simpa using hq) (hel q hq)
    | ddict kvs =>
      have hel : ∀ p ∈ kvs, deep_equals (convert_expected (serialize p.2)) p.2 = true := by
        intro p hp
        obtain ⟨k, v⟩ := p
        refine IHe v ?_ ?_
        · have h1 := List.sizeOf_lt_of_mem hp
          simp at h1 ⊢
          omega
        · exact (rtSafeKV_iff kvs).mp (by simpa [roundTripSafe] using hsf) (k, v) hp
      rw [conv_ser_ddict, rtvKVs]
      simp only [deep_equals, Bool.and_eq_true]
      refine ⟨by
        rw [kvKeys_map (fun x => convert_expected (serialize x)) kvs]
        exact strSetEq_refl _, ?_⟩
      refine deepKV_of kvs _ (fun p hp => ?_)
      rw [List.mem_map] at hp
      obtain ⟨q, hq, rfl⟩ := hp
      exact deepPair_of (show (q.1, q.2) ∈ kvs by simpa using hq) (hel q hq)

end PyRunner

/-- C6 (amended): the serialize/convert round trip preserves every value up
to `deep_equals` for every variant kind — including NaN and infinities at top
level and inside lists, tuples and all four mapping kinds — provided no NaN
occurs inside a `set`, `frozenset` or `deque`, whose members the comparator
hands to native equality where a rebuilt NaN is unequal to the original.
(The documented Null-vs-absent collapse is not exercised: `Null` itself round
trips.) -/
theorem claim_C6_round_trip (x : PyRunner.PyValue)
    (h : PyRunner.roundTripSafe x = true) :
    PyRunner.deep_equals (PyRunner.convert_expected (PyRunner.serialize x)) x = true :=
  PyRunner.rt_deep (sizeOf x) x le_rfl h

/-- C6 counterexample: the claim as stated fails at `frozenset({nan})` — the
round-tripped frozenset contains a freshly built NaN, and the comparator's
native set equality reports the sets unequal. -/
theorem claim_C6_cex :
    PyRunner.deep_equals
      (PyRunner.convert_expected (PyRunner.serialize (.frozenset [.float .nan])))
      (.frozenset [.float .nan]) = false := by
  have he : PyRunner.convert_expected (PyRunner.serialize (.float .nan)) = .float .nan :=
    PyRunner.conv_ser_float_nan
  rw [PyRunner.conv_ser_frozenset]
  simp only [PyRunner.serializeList, List.insertionSort, List.orderedInsert,
    PyRunner.convertList, he]
  simp [PyRunner.deep_equals, PyRunner.pySetEq, PyRunner.pySubAB, PyRunner.pySubBA,
    PyRunner.pyInL, PyRunner.pyInR, PyRunner.pyEq, pfEq]

/-- C6 witness: a value exercising every variant kind — nested containers,
all four mapping kinds, a non-finite float in a mapping and a NaN-free set,
frozenset and deque — satisfies the round-trip law. -/
theorem claim_C6_witness :
    PyRunner.roundTripSafe
      (.dict [("a", .list [.int 1, .float (.val 1), .str "s", .none, .bool true]),
              ("b", .tuple [.int 2]), ("c", .set [.int 3]),
              ("d", .counter [("k", .int 1)]), ("e", .odict [("k", .int 1)]),
              ("f", .ddict [("k", .int 1)]), ("g", .deque [.int 4]),
              ("h", .frozenset [.str "z"]), ("i", .float .nan)]) = true ∧
    PyRunner.deep_equals
      (PyRunner.convert_expected (PyRunner.serialize
        (.dict [("a", .list [.int 1, .float (.val 1), .str "s", .none, .bool true]),
                ("b", .tuple [.int 2]), ("c", .set [.int 3]),
                ("d", .counter [("k", .int 1)]), ("e", .odict [("k", .int 1)]),
                ("f", .ddict [("k", .int 1)]), ("g", .deque [.int 4]),
                ("h", .frozenset [.str "z"]), ("i", .float .nan)])))
      (.dict [("a", .list [.int 1, .float (.val 1), .str "s", .none, .bool true]),
              ("b", .tuple [.int 2]), ("c", .set [.int 3]),
              ("d", .counter [("k", .int 1)]), ("e", .odict [("k", .int 1)]),
              ("f", .ddict [("k", .int 1)]), ("g", .deque [.int 4]),
              ("h", .frozenset [.str "z"]), ("i", .float .nan)]) = true := by
  have hsafe : PyRunner.roundTripSafe
      (.dict [("a", .list [.int 1, .float (.val 1), .str "s", .none, .bool true]),
              ("b", .tuple [.int 2]), ("c", .set [.int 3]),
              ("d", .counter [("k", .int 1)]), ("e", .odict [("k", .int 1)]),
              ("f", .ddict [("k", .int 1)]), ("g", .deque [.int 4]),
              ("h", .frozenset [.str "z"]), ("i", .float .nan)]) = true := by
    simp [PyRunner.roundTripSafe, PyRunner.rtSafeL, PyRunner.rtSafeKV, PyRunner.nanFree,
      PyRunner.nanFreeL, PyRunner.nanFreeKV, pfIsNan]
  exact ⟨hsafe, claim_C6_round_trip _ hsafe⟩
